import Mathlib

/-!
Verification of the SDS/MSDS extraction backend (`backend/app.py`).

The Python code is shallowly embedded: document text and field values are
lists of characters (`Str`), records are insertion-ordered association lists
(as Python dicts are), and each regular-expression based extractor is
translated into an explicit, executable scanner that reproduces the
leftmost-match / greedy-with-backtracking semantics of the `re` module for
the concrete pattern it embeds.  Every definition carries a reference to the
source construct it models.
-/

set_option maxRecDepth 100000

namespace SDS

/-- Python strings are modelled as lists of characters. -/
abbrev Str := List Char

/-- Python `str.isspace` / the `\s` regex class (ASCII range, as produced by
PDF text extraction): space, tab, newline, carriage return, vertical tab,
form feed. -/
def pyIsSpace (c : Char) : Bool :=
  c = ' ' ∨ c = '\t' ∨ c = '\n' ∨ c = '\r' ∨ c = '\x0b' ∨ c = '\x0c'

/-- Python `str.strip()`: remove leading and trailing whitespace. -/
def pyStrip (s : Str) : Str :=
  ((s.dropWhile pyIsSpace).reverse.dropWhile pyIsSpace).reverse

/-- Python `str.lower()` (ASCII case folding). -/
def lowerS (s : Str) : Str := s.map Char.toLower

/-- The slice `s[a:b]` of a character list. -/
def substr (s : Str) (a b : Nat) : Str := (s.drop a).take (b - a)

/-- Greedy scan of a character class (`cls*` in a regex): starting from
position `i`, the position after the maximal run of characters satisfying
`p`.  Fuelled by the text length, which bounds every run. -/
def skipClsAux (p : Char → Bool) (s : Str) : Nat → Nat → Nat
  | 0, i => i
  | fuel + 1, i =>
    match s[i]? with
    | some c => if p c then skipClsAux p s fuel (i + 1) else i
    | none => i

def skipCls (p : Char → Bool) (s : Str) (i : Nat) : Nat :=
  skipClsAux p s s.length i

/-- Optional single character of a class (`cls?` in a regex), greedy. -/
def optCls (p : Char → Bool) (s : Str) (i : Nat) : Nat :=
  match s[i]? with
  | some c => if p c then i + 1 else i
  | none => i

/-- Match a literal at position `i`; `ci` selects case-insensitive
comparison (the `re.IGNORECASE` flag).  Returns the position after the
literal. -/
def litFrom (ci : Bool) (lit : Str) (s : Str) (i : Nat) : Option Nat :=
  match lit with
  | [] => some i
  | c :: cs =>
    match s[i]? with
    | some d =>
      if (if ci then c.toLower = d.toLower else c = d) then litFrom ci cs s (i + 1)
      else none
    | none => none

/-- First start position `≥ i` at which the positional matcher `m`
succeeds, together with its result: the leftmost-match rule of
`re.search` / `re.findall(...)[0]`.  Positions `i, i+1, …, length` are
tried in order. -/
def findFromAux {α : Type} (m : Nat → Option α) : Nat → Nat → Option (Nat × α)
  | 0, _ => none
  | fuel + 1, i =>
    match m i with
    | some a => some (i, a)
    | none => findFromAux m fuel (i + 1)

def findFrom {α : Type} (s : Str) (m : Nat → Option α) (i : Nat) : Option (Nat × α) :=
  findFromAux m (s.length + 1 - i) i

/-- Index of the first character satisfying `p`. -/
def firstIdxAux (p : Char → Bool) (s : Str) : Nat → Nat → Option Nat
  | 0, _ => none
  | fuel + 1, i =>
    match s[i]? with
    | some c => if p c then some i else firstIdxAux p s fuel (i + 1)
    | none => none

def firstIdx (p : Char → Bool) (s : Str) : Option Nat :=
  firstIdxAux p s s.length 0

/-- The character class `[\d,]` used by the numeric cleaner. -/
def numCls (c : Char) : Bool := c.isDigit ∨ c = ','

/-- Leftmost match of `([\d,]+[.,]?\d*)` (source line 110).  The `[\d,]+`
run is maximal; since `,` already belongs to it, the optional `[.,]`
position can only be a `.`, after which a maximal digit run follows. -/
def findNumRun (s : Str) : Option Str :=
  match firstIdx numCls s with
  | none => none
  | some i =>
    let j := skipCls numCls s i
    let k := if s[j]? = some '.' then skipCls Char.isDigit s (j + 1) else j
    some (substr s i k)

/-- The substitution `re.sub(r'(\d+),(\d+)$', r'\1.\2', s)` (source line
114): when the string ends in `digits , digits`, the comma before the
trailing digit run becomes a dot. -/
def commaFix (s : Str) : Str :=
  let r := s.reverse
  let d2 := r.takeWhile Char.isDigit
  if d2 ≠ [] ∧ r[d2.length]? = some ',' ∧ (r[d2.length + 1]?.any Char.isDigit) then
    s.set (s.length - d2.length - 1) '.'
  else s

/-- `clean_numeric_value` (source lines 100-117).  The "no data" literal
check runs on the raw value (before any trimming, as in the source); then
surrounding whitespace and leading `[:\-\s]` separators are removed and the
first `[\d,]+[.,]?\d*` run is extracted, normalising a trailing
comma-as-decimal to a dot. -/
def clean_numeric_value (v : Str) : Str :=
  if v = [] ∨ lowerS v = "nda".data ∨ lowerS v = "n/a".data ∨
      lowerS v = "not available".data then
    "NDA".data
  else
    let v1 := pyStrip v
    let v2 := v1.dropWhile (fun c => c = ':' ∨ c = '-' ∨ pyIsSpace c)
    match findNumRun v2 with
    | some run => commaFix run
    | none => "NDA".data

example : clean_numeric_value "  :  12,5 mg".data = "12.5".data := by decide
example : clean_numeric_value "N/A".data = "NDA".data := by decide
example : clean_numeric_value "".data = "NDA".data := by decide
example : clean_numeric_value ",x".data = ",".data := by decide
example : clean_numeric_value ">2000 mg/kg".data = "2000".data := by decide

/-- Word character, the ASCII part of the `\w` regex class. -/
def wordChar (c : Char) : Bool := c.isAlphanum ∨ c = '_'

/-- The zero-width `\b` assertion at position `i`: exactly one of the
neighbouring positions holds a word character. -/
def boundaryAt (s : Str) (i : Nat) : Bool :=
  (match i with
   | 0 => false
   | j + 1 => s[j]?.any wordChar) ≠ s[i]?.any wordChar

/-- Matcher for the CAS core `\d{2,7}-\d{2}-\d` at position `i`, returning
the end position.  Backtracking over the `\d{2,7}` length is unnecessary:
the group must be followed by `-`, and every shorter prefix of the digit
run is followed by a digit, so only the full run (of length 2..7) can
match. -/
def casCoreAt (s : Str) (i : Nat) : Option Nat :=
  let r := skipCls Char.isDigit s i - i
  if 2 ≤ r ∧ r ≤ 7 ∧ s[i + r]? = some '-' ∧
      (s[i + r + 1]?.any Char.isDigit) ∧ (s[i + r + 2]?.any Char.isDigit) ∧
      s[i + r + 3]? = some '-' ∧ (s[i + r + 4]?.any Char.isDigit) then
    some (i + r + 5)
  else none

/-- `\s+` (at least one whitespace character), greedy. -/
def sp1 (s : Str) (i : Nat) : Option Nat :=
  let j := skipCls pyIsSpace s i
  if i < j then some j else none

/-- The common tail `\s*[:\-]?\s*[\[\(]?\s*(\d{2,7}-\d{2}-\d)` of the
labelled CAS patterns (source lines 251-257); the classes of consecutive
parts are disjoint, so the greedy scan needs no backtracking.  The trailing
`\s*[\]\)]?` of the source patterns is always satisfiable and does not
affect the capture.  Returns the capture span. -/
def casTail (s : Str) (i : Nat) : Option (Nat × Nat) :=
  let i1 := skipCls pyIsSpace s i
  let i2 := optCls (fun c => c = ':' ∨ c = '-') s i1
  let i3 := skipCls pyIsSpace s i2
  let i4 := optCls (fun c => c = '[' ∨ c = '(') s i3
  let i5 := skipCls pyIsSpace s i4
  (casCoreAt s i5).map fun e => (i5, e)

/-- Pattern `CAS-No\.?\s*[:\-]?\s*[\[\(]?\s*(\d{2,7}-\d{2}-\d)\s*[\]\)]?`. -/
def casPat1At (s : Str) (i : Nat) : Option (Nat × Nat) :=
  (litFrom true "cas-no".data s i).bind fun j =>
  casTail s (optCls (· = '.') s j)

/-- Pattern `CAS\s+No\.?\s*[:\-]?\s*[\[\(]?\s*(\d{2,7}-\d{2}-\d)\s*[\]\)]?`. -/
def casPat2At (s : Str) (i : Nat) : Option (Nat × Nat) :=
  (litFrom true "cas".data s i).bind fun j =>
  (sp1 s j).bind fun j2 =>
  (litFrom true "no".data s j2).bind fun j3 =>
  casTail s (optCls (· = '.') s j3)

/-- Pattern `CAS\s+number\s*[:\-]?\s*[\[\(]?\s*(\d{2,7}-\d{2}-\d)\s*[\]\)]?`. -/
def casPat3At (s : Str) (i : Nat) : Option (Nat × Nat) :=
  (litFrom true "cas".data s i).bind fun j =>
  (sp1 s j).bind fun j2 =>
  (litFrom true "number".data s j2).bind fun j3 =>
  casTail s j3

/-- Pattern `CAS#?\s*[:\-]?\s*[\[\(]?\s*(\d{2,7}-\d{2}-\d)\s*[\]\)]?`. -/
def casPat4At (s : Str) (i : Nat) : Option (Nat × Nat) :=
  (litFrom true "cas".data s i).bind fun j =>
  casTail s (optCls (· = '#') s j)

/-- Pattern `【CAS】\s*[:\-]?\s*[\[\(]?\s*(\d{2,7}-\d{2}-\d)\s*[\]\)]?`. -/
def casPat5At (s : Str) (i : Nat) : Option (Nat × Nat) :=
  (litFrom true "【cas】".data s i).bind fun j =>
  casTail s j

/-- Pattern
`(?:CAS|cas)(?:\s*-?\s*(?:No|NUMBER|#))?\s*[:\-]?\s*[\[\(]?\s*(\d{2,7}-\d{2}-\d)\s*[\]\)]?`.
The greedy optional group is tried first with its alternatives in source
order; when its continuation fails the group is dropped, per the `re`
backtracking discipline. -/
def casPat6At (s : Str) (i : Nat) : Option (Nat × Nat) :=
  (litFrom true "cas".data s i).bind fun j =>
  let j3 := skipCls pyIsSpace s (optCls (· = '-') s (skipCls pyIsSpace s j))
  let grp := fun (lit : Str) => (litFrom true lit s j3).bind (casTail s)
  grp "no".data <|> grp "number".data <|> grp "#".data <|> casTail s j

/-- Pattern `\b(\d{2,7}-\d{2}-\d)\b` — the bare-CAS fallback (source line
259). -/
def casPat7At (s : Str) (i : Nat) : Option (Nat × Nat) :=
  if boundaryAt s i then
    (casCoreAt s i).bind fun e =>
      if boundaryAt s e then some (i, e) else none
  else none

/-- Leftmost capture of a positional pattern: `re.findall(...)[0]`. -/
def firstCapture (s : Str) (pat : Nat → Option (Nat × Nat)) : Option Str :=
  (findFrom s pat 0).map fun r => substr s r.2.1 r.2.2

/-- `extract_cas_number` (source lines 248-270): the seven patterns are
tried in order; the first pattern that matches anywhere in the text yields
its first (leftmost) capture, stripped; otherwise `"NDA"`.  The result is
never passed through `clean_numeric_value`. -/
def extract_cas_number (s : Str) : Str :=
  match firstCapture s (casPat1At s) <|> firstCapture s (casPat2At s) <|>
      firstCapture s (casPat3At s) <|> firstCapture s (casPat4At s) <|>
      firstCapture s (casPat5At s) <|> firstCapture s (casPat6At s) <|>
      firstCapture s (casPat7At s) with
  | some c => pyStrip c
  | none => "NDA".data

example : extract_cas_number "CAS-No.: 7732-18-5".data = "7732-18-5".data := by decide
example : extract_cas_number "7732-18-5".data = "7732-18-5".data := by decide
example : extract_cas_number "ABC7732-18-5".data = "NDA".data := by decide
example : extract_cas_number "no cas here".data = "NDA".data := by decide
example : extract_cas_number "CAS number: 64-17-5".data = "64-17-5".data := by decide
example : extract_cas_number "the value 50-00-0 appears".data = "50-00-0".data := by decide

/-- A record / DataFrame row: an insertion-ordered association list of
string keys and string values, as a Python dict with string values. -/
abbrev Rec := List (Str × Str)

/-- Python `row.get(k, d)`. -/
def getD (r : Rec) (k : Str) (d : Str) : Str := (r.lookup k).getD d

/-- Python `row[k] = v` on a dict: update the existing key in place,
otherwise append; insertion order is preserved (CPython 3.7+). -/
def setK : Rec → Str → Str → Rec
  | [], k, v => [(k, v)]
  | p :: t, k, v => if p.1 = k then (k, v) :: t else p :: setK t k v

/-- The canonical schema `COLUMNS` (source lines 33-53). -/
def COLUMNS : List Str :=
  ["Description".data, "CAS Number".data, "Material Name".data, "Trade Name".data,
   "Physical state".data, "Static Hazard".data, "Vapour Pressure".data,
   "Flash Point (°C)".data, "Flammable Limits by Volume (LEL, UEL)".data,
   "Melting Point (°C)".data, "Boiling Point (°C)".data, "Density".data,
   "Relative Vapour Density (Air = 1)".data, "Ignition Temperature (°C)".data,
   "Threshold Limit Value (ppm)".data, "Immediate Danger to Life in Humans".data,
   "LD50 (mg/kg)".data, "LC50".data, "Source of Information".data]

/-- The sentinel test of the merge loop (source line 614), the Python list
`["", "NDA", None, "n/a"]`; `None` cannot arise in this model because every
cell is a string. -/
def isSent (v : Str) : Bool := v = [] ∨ v = "NDA".data ∨ v = "n/a".data

/-- One merge of a duplicate-key row into the accumulated row (source
lines 611-615): for every schema column, fill the accumulator's slot from
the new row only when the current value is a sentinel and the new one is
not. -/
def mergeInto (acc row : Rec) : Rec :=
  COLUMNS.foldl (fun a col =>
    let cur := getD a col "NDA".data
    let nw := getD row col "NDA".data
    if isSent cur ∧ ¬ isSent nw then setK a col nw else a) acc

/-- Decimal digit character. -/
def digitChar : Nat → Char
  | 0 => '0' | 1 => '1' | 2 => '2' | 3 => '3' | 4 => '4'
  | 5 => '5' | 6 => '6' | 7 => '7' | 8 => '8' | _ => '9'

/-- Decimal rendering of a natural number, Python `str(n)`; fuelled so
that it reduces definitionally (the fuel `n + 1` always suffices since the
argument is divided by ten at every step). -/
def natToStrAux : Nat → Nat → Str
  | 0, _ => []
  | fuel + 1, n =>
    if n < 10 then [digitChar n]
    else natToStrAux fuel (n / 10) ++ [digitChar (n % 10)]

def natToStr (n : Nat) : Str := natToStrAux (n + 1) n

/-- The synthetic key `f"no_cas_{description}_{len(merged)}"` (source line
605). -/
def noCasKey (desc : Str) (n : Nat) : Str :=
  "no_cas_".data ++ desc ++ "_".data ++ natToStr n

/-- `row.get("CAS Number", "").strip()` (source line 602). -/
def casStripped (row : Rec) : Str := pyStrip (getD row "CAS Number".data [])

/-- The test `cas_key.lower() in ["nda", "", "n/a"]` (source line 603). -/
def unusableCas (row : Rec) : Bool :=
  lowerS (casStripped row) = "nda".data ∨ lowerS (casStripped row) = [] ∨
  lowerS (casStripped row) = "n/a".data

/-- The grouping key of a row when the merge dict currently has `n`
entries (source lines 602-605): the stripped `CAS Number` unless its
lowercase form is `"nda"`, `""` or `"n/a"`, in which case a synthetic
per-record key is built from the description and `n`. -/
def mergeKey (row : Rec) (n : Nat) : Str :=
  if unusableCas row then
    noCasKey (getD row "Description".data "unknown".data) n
  else casStripped row

/-- One iteration of the merge loop (source lines 601-615) over the
insertion-ordered dict `m`. -/
def mergeStep (m : List (Str × Rec)) (row : Rec) : List (Str × Rec) :=
  match m.lookup (mergeKey row m.length) with
  | some acc =>
    m.map fun p =>
      if p.1 = mergeKey row m.length then (mergeKey row m.length, mergeInto acc row)
      else p
  | none => m ++ [(mergeKey row m.length, row)]

/-- `merge_by_cas_number_optional` (source lines 587-618). -/
def merge_by_cas_number_optional (rows : List Rec) (merge_duplicates : Bool) :
    List Rec :=
  if rows = [] then []
  else if ¬ merge_duplicates then rows
  else (rows.foldl mergeStep []).map Prod.snd

/-- The key each row receives during the merge run, assuming every row so
far inserted a fresh entry (so that the dict size equals the row index). -/
def runKeys : Nat → List Rec → List Str
  | _, [] => []
  | n, r :: rs => mergeKey r n :: runKeys (n + 1) rs

/-- The dict entries the merge run inserts when every key is fresh. -/
def pairRun : Nat → List Rec → List (Str × Rec)
  | _, [] => []
  | n, r :: rs => (mergeKey r n, r) :: pairRun (n + 1) rs

/-- The per-column update of the merge loop (source lines 611-615), as a
named step function; `mergeInto` folds it over the schema. -/
def mstep (row : Rec) (a : Rec) (col : Str) : Rec :=
  if isSent (getD a col "NDA".data) ∧ ¬ isSent (getD row col "NDA".data) then
    setK a col (getD row col "NDA".data)
  else a

deriving instance DecidableEq for Except

/-- A DataFrame: named columns and a list of rows. -/
structure DF where
  cols : List Str
  rows : List Rec

/-- A row's stripped, lowercased `CAS Number` as compared by the
duplicate filters (source lines 642-644).  Cells missing from a row (which
the pipeline back-fills before this point) read as `"NDA"`. -/
def casKeyOf (r : Rec) : Str := lowerS (pyStrip (getD r "CAS Number".data "NDA".data))

/-- A row's stripped, lowercased `Description` (source lines 650-651). -/
def descKeyOf (r : Rec) : Str :=
  lowerS (pyStrip (getD r "Description".data "NDA".data))

/-- The key set of the CAS duplicate filter (source lines 642-643): the
stripped, lowercased existing `CAS Number` values with exactly the literal
`"nda"` discarded.  `dropna().astype(str)` is the identity here because
every modelled cell is a string. -/
def existingCas (ex : DF) : List Str :=
  (ex.rows.map casKeyOf).filter fun v => ¬ v = "nda".data

/-- The key set of the Description duplicate filter (source lines
650-651); nothing is discarded from it. -/
def existingDesc (ex : DF) : List Str :=
  ex.rows.map descKeyOf

/-- The boolean CAS filter of one new row (source line 644): true when the
row is NOT a CAS duplicate of the existing data. -/
def casNew (ex : DF) (r : Rec) : Bool :=
  ¬ (existingCas ex).contains (casKeyOf r)

/-- The boolean Description filter of one new row (source line 651). -/
def descNew (ex : DF) (r : Rec) : Bool :=
  ¬ (existingDesc ex).contains (descKeyOf r)

/-- `check_for_duplicates` (source lines 620-667).  The `duplicate_filters`
list is built in source order (CAS first, then Description, each guarded by
mode and column presence).  In mode `"both"` the source indexes
`duplicate_filters[0] & duplicate_filters[1]`; when fewer than two filters
were built this raises `IndexError`, modelled as `.error`. -/
def check_for_duplicates (ex nw : DF) (mode : Str) : Except Str (List Rec) :=
  if mode = "none".data then .ok nw.rows
  else if ex.rows.length = 0 then .ok nw.rows
  else
    let fs : List (Rec → Bool) :=
      (if (mode = "cas".data ∨ mode = "both".data) ∧
          ex.cols.contains "CAS Number".data then [casNew ex] else []) ++
      (if (mode = "description".data ∨ mode = "both".data) ∧
          ex.cols.contains "Description".data then [descNew ex] else [])
    if fs.isEmpty then .ok nw.rows
    else if mode = "both".data then
      match fs with
      | f0 :: f1 :: _ => .ok (nw.rows.filter fun r => f0 r ∧ f1 r)
      | _ => .error "list index out of range".data
    else
      match fs with
      | f0 :: _ => .ok (nw.rows.filter f0)
      | [] => .ok nw.rows

example :
    check_for_duplicates
      ⟨COLUMNS, [[("Description".data, "ethanol".data), ("CAS Number".data, "64-17-5".data)]]⟩
      ⟨COLUMNS, [[("Description".data, "methanol".data), ("CAS Number".data, "64-17-5".data)]]⟩
      "both".data = .ok [] := by decide

example :
    check_for_duplicates
      ⟨COLUMNS, [[("Description".data, "a".data), ("CAS Number".data, "n/a".data)]]⟩
      ⟨COLUMNS, [[("Description".data, "b".data), ("CAS Number".data, "n/a".data)]]⟩
      "cas".data = .ok [] := by decide

example :
    merge_by_cas_number_optional
      [[("CAS Number".data, "64742-47-8".data), ("Density".data, "NDA".data)],
       [("CAS Number".data, "64742-47-8".data), ("Density".data, "0.8".data)]] true
    = [[("CAS Number".data, "64742-47-8".data), ("Density".data, "0.8".data)]] := by decide

example :
    merge_by_cas_number_optional
      [[("Description".data, "a".data)], [("Description".data, "a".data)]] true
    = [[("Description".data, "a".data)], [("Description".data, "a".data)]] := by decide

/-- First success of `f` over a list of alternatives: the order in which
the `re` engine explores alternation and optional-group candidates. -/
def firstSome {α β : Type} (f : α → Option β) : List α → Option β
  | [] => none
  | a :: as => f a <|> firstSome f as

/-- An `Option` as a candidate list. -/
def optList {α : Type} : Option α → List α
  | some a => [a]
  | none => []

/-- Not a line terminator: the `[^\n\r]` class. -/
def nonNL (c : Char) : Bool := ¬ (c = '\n' ∨ c = '\r')

/-- Greedy capture of a character class from position `i`. -/
def capWhile (p : Char → Bool) (s : Str) (i : Nat) : Str := (s.drop i).takeWhile p

/-- Largest position in `[lo, hi)`, scanned downward, whose character can
start the mandatory capture: the order in which a greedy `\s*` yields
characters back to a following `(cls+)` group. -/
def givebackIdx (capP : Char → Bool) (s : Str) (lo : Nat) : Nat → Option Nat
  | 0 => none
  | hi + 1 =>
    if hi < lo then none
    else if s[hi]?.any capP then some hi
    else givebackIdx capP s lo hi

/-- The tail `\s*X?\s*(capP+)` (with `X` an optional one-character class):
greedy skips, then the mandatory capture; when no capturable character
follows the skips, characters are yielded back newest-first — through the
second `\s*`, then the optional character, then the first `\s*` — until
the capture can start; it then extends greedily. -/
def tailOptClsCap (optP capP : Char → Bool) (s : Str) (i : Nat) : Option Str :=
  let i1 := skipCls pyIsSpace s i
  let i2 := optCls optP s i1
  let i3 := skipCls pyIsSpace s i2
  if s[i3]?.any capP then some (capWhile capP s i3)
  else
    match givebackIdx capP s i2 i3 with
    | some p => some (capWhile capP s p)
    | none =>
      if i1 < i2 ∧ s[i1]?.any capP then some (capWhile capP s i1)
      else
        match givebackIdx capP s i i1 with
        | some p => some (capWhile capP s p)
        | none => none

/-- The tail `[:\s]*(capP+)` (one merged class), with the same giveback
discipline. -/
def tailClsCap (capP : Char → Bool) (s : Str) (i : Nat) : Option Str :=
  let i1 := skipCls (fun c => c = ':' ∨ pyIsSpace c) s i
  if s[i1]?.any capP then some (capWhile capP s i1)
  else
    match givebackIdx capP s i i1 with
    | some p => some (capWhile capP s p)
    | none => none

/-- `find_between` post-processing (source lines 237-245), specialised to
a precomputed leftmost capture: strip the capture, and when any character
of the stripped result is a digit run it through `clean_numeric_value`;
return `default` when nothing matched. -/
def find_between (firstMatch : Option Str) (default : Str) : Str :=
  match firstMatch with
  | some cap =>
    let r := pyStrip cap
    if r.any Char.isDigit then clean_numeric_value r else r
  | none => default

/-- Python `str((a, b))` for strings free of quotes and escapes, as
produced when `re.findall` returns tuples and `find_between` renders
`matches[0]` with `str` (source line 240). -/
def pyPairRepr (a b : Str) : Str :=
  "('".data ++ a ++ "', '".data ++ b ++ "')".data

/-- Lazy `.*?\)`: consume up to and including the first `)` with no
intervening newline (`.` does not match `\n`). -/
def closeScan (s : Str) : Nat → Nat → Option Nat
  | 0, _ => none
  | fuel + 1, p =>
    match s[p]? with
    | some c =>
      if c = ')' then some (p + 1)
      else if c = '\n' then none
      else closeScan s fuel (p + 1)
    | none => none

/-- The optional group `(?:\s*\(.*?\))?` used by several extractors. -/
def parenGrp (s : Str) (i : Nat) : Option Nat :=
  let i1 := skipCls pyIsSpace s i
  if s[i1]? = some '(' then closeScan s s.length (i1 + 1) else none

/-- Words joined by mandatory whitespace (`a\s+b\s+…`). -/
def wordsPat (ws : List Str) (s : Str) (i : Nat) : Option Nat :=
  match ws with
  | [] => some i
  | [w] => litFrom true w s i
  | w :: rest => (litFrom true w s i).bind fun j => (sp1 s j).bind (wordsPat rest s)

/-- Greedy `.*` gap inside one line followed by a sub-matcher: succeeds if
the sub-matcher fires at any position reachable without crossing a
newline (existence is all the source uses these gaps for). -/
def lineGap (m : Nat → Option Nat) (s : Str) : Nat → Nat → Option Nat
  | 0, _ => none
  | fuel + 1, p =>
    match m p with
    | some e => some e
    | none =>
      match s[p]? with
      | some c => if c = '\n' then none else lineGap m s fuel (p + 1)
      | none => none

/-- Unrestricted gap (`.*?` under `re.DOTALL`): the sub-matcher may fire
at any later position. -/
def anyGap (m : Nat → Option Nat) (s : Str) : Nat → Nat → Option Nat
  | 0, _ => none
  | fuel + 1, p =>
    match m p with
    | some e => some e
    | none =>
      match s[p]? with
      | some _ => anyGap m s fuel (p + 1)
      | none => none

/-- Existence of a match anywhere in the text. -/
def hasPat (s : Str) (m : Nat → Option Nat) : Bool := (findFrom s m 0).isSome

/-- Flash-point pattern `\bflash\s+point\b\s*:?\s*(.*)` (source lines
394-399) at one position; the `(.*)` capture may be empty, so the greedy
skips need no giveback. -/
def flashPatAt (s : Str) (i : Nat) : Option Str :=
  if boundaryAt s i then
    (litFrom true "flash".data s i).bind fun j =>
    (sp1 s j).bind fun j2 =>
    (litFrom true "point".data s j2).bind fun j3 =>
    if boundaryAt s j3 then
      let i1 := skipCls pyIsSpace s j3
      let i2 := optCls (· = ':') s i1
      let i3 := skipCls pyIsSpace s i2
      some (capWhile (· ≠ '\n') s i3)
    else none
  else none

/-- The `Flash Point` field: `find_between` over the flash pattern. -/
def extract_flash_point (s : Str) : Str :=
  find_between ((findFrom s (flashPatAt s) 0).map Prod.snd) "NDA".data

/-- The class `[\d\-,]` of the melting-point capture. -/
def meltCls (c : Char) : Bool := c.isDigit ∨ c = '-' ∨ c = ','

/-- Melting-point pattern `Melting\s+point\s*:?\s*([\d\-,]+[.,]?\d*)`
(source line 407).  Whitespace and the optional colon cannot start the
capture class, so no giveback applies; a `,` can never follow the maximal
`[\d\-,]+` run, so the optional `[.,]` position can only hold `.`. -/
def meltPatAt (s : Str) (i : Nat) : Option Str :=
  (litFrom true "melting".data s i).bind fun j =>
  (sp1 s j).bind fun j2 =>
  (litFrom true "point".data s j2).bind fun j3 =>
  let i1 := skipCls pyIsSpace s j3
  let i2 := optCls (· = ':') s i1
  let i3 := skipCls pyIsSpace s i2
  let r := skipCls meltCls s i3 - i3
  if 1 ≤ r then
    let j := i3 + r
    let k := if s[j]? = some '.' then skipCls Char.isDigit s (j + 1) else j
    some (substr s i3 k)
  else none

def extract_melting_point (s : Str) : Str :=
  find_between ((findFrom s (meltPatAt s) 0).map Prod.snd) "NDA".data

/-- `boiling\s*point`. -/
def boilBP (s : Str) (i : Nat) : Option Nat :=
  (litFrom true "boiling".data s i).bind fun j =>
  litFrom true "point".data s (skipCls pyIsSpace s j)

/-- `initial\s*boiling\s*point`. -/
def boilIBP (s : Str) (i : Nat) : Option Nat :=
  (litFrom true "initial".data s i).bind fun k =>
  (litFrom true "boiling".data s (skipCls pyIsSpace s k)).bind fun k2 =>
  litFrom true "point".data s (skipCls pyIsSpace s k2)

/-- `\s*and\s*boiling\s*range`. -/
def boilABR (s : Str) (e : Nat) : Option Nat :=
  (litFrom true "and".data s (skipCls pyIsSpace s e)).bind fun a =>
  (litFrom true "boiling".data s (skipCls pyIsSpace s a)).bind fun a2 =>
  litFrom true "range".data s (skipCls pyIsSpace s a2)

/-- Candidate ends (in `re` backtracking order) of the first boiling-point
alternative `boiling\s*point(?:\s*(?:or|,)?\s*initial\s*boiling\s*point
(?:\s*and\s*boiling\s*range)?)?` (source line 409). -/
def boilACands (s : Str) (i : Nat) : List Nat :=
  match boilBP s i with
  | none => []
  | some e0 =>
    let extFrom := fun (o : Nat) =>
      match boilIBP s (skipCls pyIsSpace s o) with
      | none => []
      | some e1 => optList (boilABR s e1) ++ [e1]
    let a1 := skipCls pyIsSpace s e0
    let orCands : List Nat :=
      optList (litFrom true "or".data s a1) ++
      (if s[a1]? = some ',' then [a1 + 1] else []) ++ [a1]
    ((orCands.map extFrom).flatten) ++ [e0]

/-- Candidate ends of the remaining boiling-point alternatives, in source
order: `initial boiling point (and boiling range)?`,
`boiling point / range`, `boiling point / boiling range`,
`boiling point ,? range`, `boiling point (…)`. -/
def boilOtherCands (s : Str) (i : Nat) : List Nat :=
  (match boilIBP s i with
   | none => []
   | some e1 => optList (boilABR s e1) ++ [e1]) ++
  optList ((boilBP s i).bind fun e =>
    let a := skipCls pyIsSpace s e
    if s[a]? = some '/' then litFrom true "range".data s (skipCls pyIsSpace s (a + 1))
    else none) ++
  optList ((boilBP s i).bind fun e =>
    let a := skipCls pyIsSpace s e
    if s[a]? = some '/' then
      (litFrom true "boiling".data s (skipCls pyIsSpace s (a + 1))).bind fun b =>
      litFrom true "range".data s (skipCls pyIsSpace s b)
    else none) ++
  (match boilBP s i with
   | none => []
   | some e =>
    let a := skipCls pyIsSpace s e
    let commaCands := (if s[a]? = some ',' then [a + 1] else []) ++ [a]
    (commaCands.map fun o =>
      optList (litFrom true "range".data s (skipCls pyIsSpace s o))).flatten) ++
  optList ((boilBP s i).bind fun e =>
    let a := skipCls pyIsSpace s e
    if s[a]? = some '(' then closeScan s s.length (a + 1) else none)

/-- Boiling-point pattern (source lines 408-412): `\b(?:…)\b[:\s\-]*([^\n\r]*)`
with the alternation candidates above; the capture may be empty. -/
def boilPatAt (s : Str) (i : Nat) : Option Str :=
  if boundaryAt s i then
    firstSome (fun e =>
      if boundaryAt s e then
        let t := skipCls (fun c => c = ':' ∨ c = '-' ∨ pyIsSpace c) s e
        some (capWhile nonNL s t)
      else none) (boilACands s i ++ boilOtherCands s i)
  else none

def extract_boiling_point (s : Str) : Str :=
  find_between ((findFrom s (boilPatAt s) 0).map Prod.snd) "NDA".data

/-- TLV pattern `TLV\s*:?\s*([^\n\r]+)` (source line 572). -/
def tlvPatAt (s : Str) (i : Nat) : Option Str :=
  (litFrom true "tlv".data s i).bind fun j =>
  tailOptClsCap (· = ':') nonNL s j

def extract_tlv (s : Str) : Str :=
  find_between ((findFrom s (tlvPatAt s) 0).map Prod.snd) "NDA".data

/-- Capture class `[^\n\r.]` of the physical-state pattern. -/
def psCapCls (c : Char) : Bool := ¬ (c = '\n' ∨ c = '\r' ∨ c = '.')

/-- All ends, in lazy order, of `[^\n\r:]*?(?:degree|°)\s*[CF]` starting
at `p` (part of the optional temperature qualifier of the physical-state
pattern, source lines 345-350). -/
def psAtEnds (s : Str) : Nat → Nat → List Nat
  | 0, _ => []
  | fuel + 1, p =>
    let here := optList
      (((litFrom true "degree".data s p) <|> litFrom true "°".data s p).bind fun q =>
        let q2 := skipCls pyIsSpace s q
        if s[q2]?.any (fun c => c.toLower = 'c' ∨ c.toLower = 'f') then some (q2 + 1)
        else none)
    here ++
      (match s[p]? with
       | some c => if ¬ (c = '\n' ∨ c = '\r' ∨ c = ':') then psAtEnds s fuel (p + 1) else []
       | none => [])

/-- Physical-state pattern (source lines 344-353):
`\b(?:physical\s+state|appearance:\s+form|appearance)` then the optional
`(?:\s+at\s+[^\n\r:]*?(?:degree|°)\s*[CF])?` qualifier, then
`\s*[:\-]?\s*([^\n\r.]+)`.  Label alternatives and qualifier extents are
tried in `re` order, falling back to the shorter alternative when a
continuation fails. -/
def psPatAt (s : Str) (i : Nat) : Option Str :=
  if boundaryAt s i then
    let labels : List Nat :=
      optList ((litFrom true "physical".data s i).bind fun j =>
        (sp1 s j).bind fun j2 => litFrom true "state".data s j2) ++
      optList ((litFrom true "appearance:".data s i).bind fun j =>
        (sp1 s j).bind fun j2 => litFrom true "form".data s j2) ++
      optList (litFrom true "appearance".data s i)
    firstSome (fun j =>
      let atEnds : List Nat :=
        (match (sp1 s j).bind (fun a1 =>
            (litFrom true "at".data s a1).bind fun a2 => sp1 s a2) with
         | some a3 => psAtEnds s (s.length + 1 - a3) a3
         | none => []) ++ [j]
      firstSome (tailOptClsCap (fun c => c = ':' ∨ c = '-') psCapCls s) atEnds) labels
  else none

def extract_physical_state (s : Str) : Str :=
  find_between ((findFrom s (psPatAt s) 0).map Prod.snd) "NDA".data

/-- The vapour-pressure tail `\s*[:\-]?\s*(.*)`; the capture may be
empty. -/
def capColonDashRest (s : Str) (i : Nat) : Str :=
  let i1 := skipCls pyIsSpace s i
  let i2 := optCls (fun c => c = ':' ∨ c = '-') s i1
  let i3 := skipCls pyIsSpace s i2
  capWhile (· ≠ '\n') s i3

/-- The optional qualifier `(?:\s+at\s+\d{1,3}\s*(?:degree)?\s*[°]?[Cc])?`
of the vapour-pressure pattern.  The `\d{1,3}` needs no backtracking: any
shorter prefix of the digit run is followed by a digit, which none of the
continuations accept. -/
def vpAtGrp (s : Str) (i : Nat) : Option Nat :=
  (sp1 s i).bind fun a1 =>
  (litFrom true "at".data s a1).bind fun a2 =>
  (sp1 s a2).bind fun a3 =>
  let d := skipCls Char.isDigit s a3 - a3
  if 1 ≤ d ∧ d ≤ 3 then
    let tryC := fun (p : Nat) =>
      let p1 := skipCls pyIsSpace s p
      let p2 := optCls (· = '°') s p1
      if s[p2]?.any (fun c => c.toLower = 'c') then some (p2 + 1) else none
    let b1 := skipCls pyIsSpace s (a3 + d)
    ((litFrom true "degree".data s b1).bind tryC) <|> tryC b1
  else none

/-- `vp_pattern` (source lines 362-368):
`vapo[u]?r\s+pressure(?:\s*\(.*?\))?(?:\s+at\s+…)?\s*[:\-]?\s*(.*)`.
Everything after the label is optional or a possibly-empty capture, so the
greedy choices are final. -/
def vpPatAt (s : Str) (i : Nat) : Option Str :=
  (litFrom true "vapo".data s i).bind fun j0 =>
  let j1 := optCls (fun c => c.toLower = 'u') s j0
  (litFrom true "r".data s j1).bind fun j2 =>
  (sp1 s j2).bind fun j3 =>
  (litFrom true "pressure".data s j3).bind fun j4 =>
  let j5 := match parenGrp s j4 with | some e => e | none => j4
  let j6 := match vpAtGrp s j5 with | some e => e | none => j5
  some (capColonDashRest s j6)

/-- The `Vapour Pressure` field (source lines 360-372): a direct
`re.search`, with `group(1).strip()` on success and no numeric cleaning. -/
def extract_vapour_pressure (s : Str) : Str :=
  match findFrom s (vpPatAt s) 0 with
  | some r => pyStrip r.2
  | none => "NDA".data

/-- The optional `(?:\s*&\s*Synonyms)?` group of the trade-name
pattern. -/
def synGrp (s : Str) (j : Nat) : Option Nat :=
  let a := skipCls pyIsSpace s j
  if s[a]? = some '&' then
    litFrom true "synonyms".data s (skipCls pyIsSpace s (a + 1))
  else none

/-- `trade_pattern` (source line 384):
`(?i)(?:Product\s*/\s*)?Trade\s*Name(?:\s*&\s*Synonyms)?\s*:?\s*([^\n\r]+)`;
the optional groups are dropped (in backtracking order) when the mandatory
capture cannot start. -/
def tradePatAt (s : Str) (i : Nat) : Option Str :=
  let afterProd : List Nat :=
    optList ((litFrom true "product".data s i).bind fun j =>
      let j1 := skipCls pyIsSpace s j
      if s[j1]? = some '/' then some (skipCls pyIsSpace s (j1 + 1)) else none) ++ [i]
  firstSome (fun st =>
    (litFrom true "trade".data s st).bind fun t1 =>
    (litFrom true "name".data s (skipCls pyIsSpace s t1)).bind fun t3 =>
    firstSome (tailOptClsCap (· = ':') nonNL s) (optList (synGrp s t3) ++ [t3]))
    afterProd

/-- The `Trade Name` field (source lines 384-390): stripped capture of a
direct `re.search`, no numeric cleaning. -/
def extract_trade_name (s : Str) : Str :=
  match findFrom s (tradePatAt s) 0 with
  | some r => pyStrip r.2
  | none => "NDA".data

/-- `\d{1,3}\s*(?:°|degree)?\s*[CFK]` (density fallback temperature
qualifiers).  Shorter digit prefixes are followed by a digit, which no
continuation accepts, so only the full (≤ 3) digit run can match. -/
def densTempTail (s : Str) (p : Nat) : Option Nat :=
  let d := skipCls Char.isDigit s p - p
  if 1 ≤ d ∧ d ≤ 3 then
    let b1 := skipCls pyIsSpace s (p + d)
    let degCands : List Nat :=
      (if s[b1]? = some '°' then [b1 + 1] else []) ++
      optList (litFrom true "degree".data s b1) ++ [b1]
    firstSome (fun q =>
      let q1 := skipCls pyIsSpace s q
      if s[q1]?.any (fun c => c.toLower = 'c' ∨ c.toLower = 'f' ∨ c.toLower = 'k') then
        some (q1 + 1)
      else none) degCands
  else none

/-- Lazy `.*?=\s*1\)` inside a parenthesis (density fallbacks a and b). -/
def eqOneScan (s : Str) : Nat → Nat → Option Nat
  | 0, _ => none
  | fuel + 1, p =>
    match (if s[p]? = some '=' then
        (let q := skipCls pyIsSpace s (p + 1)
         if s[q]? = some '1' then
           (if s[q + 1]? = some ')' then some (q + 2) else none)
         else none)
      else none) with
    | some e => some e
    | none =>
      match s[p]? with
      | some c => if c = '\n' then none else eqOneScan s fuel (p + 1)
      | none => none

/-- `\s*\(.*?=\s*1\)`. -/
def parenEqOne (s : Str) (e : Nat) : Option Nat :=
  let a := skipCls pyIsSpace s e
  if s[a]? = some '(' then eqOneScan s s.length (a + 1) else none

/-- Candidate ends of the ten alternatives of the density
`fallback_pattern` (source lines 442-467), in source order. -/
def densT4Cands (s : Str) (i : Nat) : List Nat :=
  let specGrav := wordsPat ["specific".data, "gravity".data] s i
  let relDens := wordsPat ["relative".data, "density".data] s i
  let dens := litFrom true "density".data s i
  optList (specGrav.bind (parenEqOne s)) ++
  optList (relDens.bind (parenEqOne s)) ++
  (match specGrav with
   | none => []
   | some e => optList ((sp1 s e).bind (litFrom true "density".data s)) ++ [e]) ++
  optList (specGrav.bind fun e =>
    let a := skipCls pyIsSpace s e
    if s[a]? = some '/' then litFrom true "density".data s (skipCls pyIsSpace s (a + 1))
    else none) ++
  optList (dens.bind fun e =>
    let a := skipCls pyIsSpace s e
    if s[a]? = some '/' then wordsPat ["specific".data, "gravity".data] s (skipCls pyIsSpace s (a + 1))
    else none) ++
  optList (dens.bind fun e =>
    (sp1 s e).bind fun a => (litFrom true "at".data s a).bind fun b =>
    (sp1 s b).bind (densTempTail s)) ++
  optList (dens.bind fun e =>
    let a := skipCls pyIsSpace s e
    if s[a]? = some '@' then
      (let p := skipCls pyIsSpace s (a + 1)
       let d := skipCls Char.isDigit s p - p
       if 1 ≤ d ∧ d ≤ 3 then
         (let q := skipCls pyIsSpace s (p + d)
          if s[q]?.any (fun c => c.toLower = 'c' ∨ c.toLower = 'f' ∨ c.toLower = 'k') then
            some (q + 1)
          else none)
       else none)
    else none) ++
  optList ((dens.bind fun e =>
    (sp1 s e).bind fun a => (litFrom true "at".data s a).bind fun b =>
    (sp1 s b).bind (densTempTail s)).bind fun e2 =>
    let a := skipCls pyIsSpace s e2
    if s[a]? = some ',' then
      (let p := skipCls pyIsSpace s (a + 1)
       let cls := fun (c : Char) =>
         c.toLower = 'g' ∨ c.toLower = 'k' ∨ c.toLower = 'm' ∨ c = '/' ∨ c = '^' ∨
         pyIsSpace c ∨ c.isDigit ∨ c = '.'
       let r := skipCls cls s p - p
       if 1 ≤ r then some (p + r) else none)
    else none) ++
  optList (specGrav.bind fun e =>
    (sp1 s e).bind fun a => (litFrom true "at".data s a).bind fun b =>
    (sp1 s b).bind (densTempTail s)) ++
  optList (relDens.bind fun e =>
    (sp1 s e).bind fun a => (litFrom true "at".data s a).bind fun b =>
    (sp1 s b).bind (densTempTail s))

/-- Tier 1 pattern `Density\s+and\s+/\s+or\s+relative\s+density\s*[:\-]?\s*(.*)`
(source line 419, `re.IGNORECASE`). -/
def densT1At (s : Str) (i : Nat) : Option Str :=
  (wordsPat ["density".data, "and".data, "/".data, "or".data, "relative".data,
    "density".data] s i).map (capColonDashRest s)

/-- Tier 2 pattern `Relative\s+Density\s*[:\-]?\s*(.*)` (source line 426,
case-sensitive: no flag is passed). -/
def densT2At (s : Str) (i : Nat) : Option Str :=
  ((litFrom false "Relative".data s i).bind fun j =>
    (sp1 s j).bind (litFrom false "Density".data s)).map (capColonDashRest s)

/-- Tier 3 pattern `Density\s*[:\-]?\s*(.*)` (source line 434,
case-sensitive). -/
def densT3At (s : Str) (i : Nat) : Option Str :=
  (litFrom false "Density".data s i).map (capColonDashRest s)

/-- Tier 4: the `fallback_pattern` alternation; its group 2 is the
captured value. -/
def densT4At (s : Str) (i : Nat) : Option Str :=
  firstSome (fun e => some (capColonDashRest s e)) (densT4Cands s i)

/-- The `invalid_values` list (source line 417), compared against the
lowercased capture; the mixed-case entries can therefore never match. -/
def invalidVals : List Str :=
  ["not measured".data, "no data available".data, "Not applicable".data,
   "No data available".data, "not applicable".data, "not available".data]

/-- The `Density` field (source lines 414-472): tier 1 sets the value,
tier 2 runs unconditionally and overwrites on a valid match, tiers 3 and 4
run only while the value is still `"NDA"`; at every tier a capture whose
lowercase form is in `invalid_values` is discarded. -/
def extract_density (s : Str) : Str :=
  let inv := fun (v : Str) => invalidVals.contains (lowerS v)
  let d1 :=
    match (findFrom s (densT1At s) 0).map Prod.snd with
    | some c => let v := pyStrip c; if ¬ inv v then v else "NDA".data
    | none => "NDA".data
  let d2 :=
    match (findFrom s (densT2At s) 0).map Prod.snd with
    | some c => let v := pyStrip c; if ¬ inv v then v else d1
    | none => d1
  let d3 :=
    if d2 = "NDA".data then
      match (findFrom s (densT3At s) 0).map Prod.snd with
      | some c => let v := pyStrip c; if ¬ inv v then v else d2
      | none => d2
    else d2
  if d3 = "NDA".data then
    match (findFrom s (densT4At s) 0).map Prod.snd with
    | some c => let v := pyStrip c; if ¬ inv v then v else d3
    | none => d3
  else d3

/-- `(?:\s*\(air\s*=\s*1\))?` of the vapour-density pattern. -/
def vdParen (s : Str) (i : Nat) : Option Nat :=
  let a := skipCls pyIsSpace s i
  if s[a]? = some '(' then
    (litFrom true "air".data s (a + 1)).bind fun b =>
    let c := skipCls pyIsSpace s b
    if s[c]? = some '=' then
      let d := skipCls pyIsSpace s (c + 1)
      if s[d]? = some '1' then
        (if s[d + 1]? = some ')' then some (d + 2) else none)
      else none
    else none
  else none

/-- `(?:\s+at\s+\d{1,3}\s*(?:degree)?\s*[°]?\s*C)?` of the vapour-density
pattern. -/
def vdAtGrp (s : Str) (i : Nat) : Option Nat :=
  (sp1 s i).bind fun a1 =>
  (litFrom true "at".data s a1).bind fun a2 =>
  (sp1 s a2).bind fun a3 =>
  let d := skipCls Char.isDigit s a3 - a3
  if 1 ≤ d ∧ d ≤ 3 then
    let tryC := fun (p : Nat) =>
      let p1 := skipCls pyIsSpace s p
      let p2 := optCls (· = '°') s p1
      let p3 := skipCls pyIsSpace s p2
      if s[p3]?.any (fun c => c.toLower = 'c') then some (p3 + 1) else none
    let b1 := skipCls pyIsSpace s (a3 + d)
    ((litFrom true "degree".data s b1).bind tryC) <|> tryC b1
  else none

/-- `vapor_density_pattern` (source lines 478-485):
`(?:relative\s+)?vapo[u]?r\s+density(?:\s*\(air\s*=\s*1\))?(?:\s+at\s+…)?\s*[:\-]?\s*(.*)`. -/
def vdPatAt (s : Str) (i : Nat) : Option Str :=
  firstSome (fun st =>
    (litFrom true "vapo".data s st).bind fun j0 =>
    let j1 := optCls (fun c => c.toLower = 'u') s j0
    (litFrom true "r".data s j1).bind fun j2 =>
    (sp1 s j2).bind fun j3 =>
    (litFrom true "density".data s j3).map fun j4 =>
    let j5 := match vdParen s j4 with | some e => e | none => j4
    let j6 := match vdAtGrp s j5 with | some e => e | none => j5
    capColonDashRest s j6)
    (optList ((litFrom true "relative".data s i).bind (sp1 s)) ++ [i])

/-- The `Relative Vapour Density` field (source lines 476-489): stripped
capture of a direct `re.search`. -/
def extract_vapor_density (s : Str) : Str :=
  match findFrom s (vdPatAt s) 0 with
  | some r => pyStrip r.2
  | none => "NDA".data

/-- The class `[50₅O]` (with `re.IGNORECASE`, `O` also matches `o`). -/
def ld50Cls (c : Char) : Bool := c = '5' ∨ c = '0' ∨ c = '₅' ∨ c.toLower = 'o'

/-- Greedy `cls+` of length at most `r` followed by a continuation, with
the `re` backtracking order: longer runs first. -/
def runBack {α : Type} (cont : Nat → Option α) (j : Nat) : Nat → Option α
  | 0 => none
  | r + 1 => cont (j + r + 1) <|> runBack cont j r

/-- The LD50 capture
`([><=]?\s*\d+(?:[.,]\d+)?\s*(?:mg|g)/kg(?:\s*\(.*?\))?)` as a span. -/
def ld50Cap (s : Str) (p : Nat) : Option (Nat × Nat) :=
  let p1 := optCls (fun c => c = '>' ∨ c = '<' ∨ c = '=') s p
  let p2 := skipCls pyIsSpace s p1
  let d := skipCls Char.isDigit s p2 - p2
  if 1 ≤ d then
    let q0 := p2 + d
    let q1 :=
      match (if s[q0]?.any (fun c => c = '.' ∨ c = ',') then
          (let dd := skipCls Char.isDigit s (q0 + 1) - (q0 + 1)
           if 1 ≤ dd then some (q0 + 1 + dd) else none)
        else none) with
      | some e => e
      | none => q0
    let q2 := skipCls pyIsSpace s q1
    ((litFrom true "mg".data s q2 <|> litFrom true "g".data s q2).bind fun q3 =>
      (litFrom true "/kg".data s q3).map fun q4 =>
      match parenGrp s q4 with
      | some e => (p, e)
      | none => (p, q4))
  else none

/-- `LD[50₅O]+` then a continuation, with run-length backtracking. -/
def ldRun (s : Str) (i : Nat) (cont : Nat → Option (Nat × Nat)) : Option (Nat × Nat) :=
  (litFrom true "ld".data s i).bind fun j =>
  let r := skipCls ld50Cls s j - j
  if 1 ≤ r then runBack cont j r else none

/-- `(?:oral|dermal)?` candidates in `re` order. -/
def oralOpt (s : Str) (p : Nat) : List Nat :=
  optList (litFrom true "oral".data s p) ++
  optList (litFrom true "dermal".data s p) ++ [p]

/-- LD50 pattern 1 (source line 496):
`LD[50₅O]+\s*(?:oral|dermal)?\s*[:\-]?\s*(cap)`. -/
def ld50Pat1At (s : Str) (i : Nat) : Option (Nat × Nat) :=
  ldRun s i fun e =>
    firstSome (fun o =>
      let o1 := skipCls pyIsSpace s o
      let o2 := optCls (fun c => c = ':' ∨ c = '-') s o1
      ld50Cap s (skipCls pyIsSpace s o2)) (oralOpt s (skipCls pyIsSpace s e))

/-- LD50 pattern 2 (source line 497):
`LD[50₅O]+\s*[:\-]?\s*(?:oral|dermal)?\s*(cap)`. -/
def ld50Pat2At (s : Str) (i : Nat) : Option (Nat × Nat) :=
  ldRun s i fun e =>
    let o1 := skipCls pyIsSpace s e
    let o2 := optCls (fun c => c = ':' ∨ c = '-') s o1
    firstSome (fun o => ld50Cap s (skipCls pyIsSpace s o))
      (oralOpt s (skipCls pyIsSpace s o2))

/-- LD50 pattern 3 (source line 498):
`LD[50₅O]+\s*(?:oral|dermal)?\s*(cap)`. -/
def ld50Pat3At (s : Str) (i : Nat) : Option (Nat × Nat) :=
  ldRun s i fun e =>
    firstSome (fun o => ld50Cap s (skipCls pyIsSpace s o))
      (oralOpt s (skipCls pyIsSpace s e))

/-- The `LD50` field (source lines 495-505): each pattern goes through
`find_between`, stopping at the first non-`"NDA"` result. -/
def extract_ld50 (s : Str) : Str :=
  let f := fun (pat : Nat → Option (Nat × Nat)) =>
    find_between ((findFrom s pat 0).map fun r => substr s r.2.1 r.2.2) "NDA".data
  let v1 := f (ld50Pat1At s)
  if v1 ≠ "NDA".data then v1
  else
    let v2 := f (ld50Pat2At s)
    if v2 ≠ "NDA".data then v2 else f (ld50Pat3At s)

/-- `.*fish` on the current line: the negative-lookahead body of the LC50
parenthetical (covers the `zebrafish` alternative as well). -/
def fishScan (s : Str) : Nat → Nat → Bool
  | 0, _ => false
  | fuel + 1, p =>
    if (litFrom true "fish".data s p).isSome then true
    else
      match s[p]? with
      | some c => if c = '\n' then false else fishScan s fuel (p + 1)
      | none => false

/-- `(?:\s*\((?!.*fish|zebrafish|minnow).*?\))?` of the LC50 patterns. -/
def lc50Paren (s : Str) (q : Nat) : Option Nat :=
  let a := skipCls pyIsSpace s q
  if s[a]? = some '(' then
    if fishScan s s.length (a + 1) ∨ (litFrom true "minnow".data s (a + 1)).isSome then none
    else closeScan s s.length (a + 1)
  else none

/-- `(?:\s*\d+\s*(?:h|hr))?` of the LC50 patterns; at the end of the
pattern the alternative `h` always suffices. -/
def hourGrp (s : Str) (q : Nat) : Option Nat :=
  let a := skipCls pyIsSpace s q
  let d := skipCls Char.isDigit s a - a
  if 1 ≤ d then litFrom true "h".data s (skipCls pyIsSpace s (a + d)) else none

/-- The LC50 capture with a given unit matcher:
`([><=]?\s*\d+(?:[.,]\d+)?\s*UNIT(?:\s*\(…\))?(?:\s*\d+\s*(?:h|hr))?)`. -/
def lc50CapWith (unit : Nat → Option Nat) (s : Str) (p : Nat) : Option (Nat × Nat) :=
  let p1 := optCls (fun c => c = '>' ∨ c = '<' ∨ c = '=') s p
  let p2 := skipCls pyIsSpace s p1
  let d := skipCls Char.isDigit s p2 - p2
  if 1 ≤ d then
    let q0 := p2 + d
    let q1 :=
      match (if s[q0]?.any (fun c => c = '.' ∨ c = ',') then
          (let dd := skipCls Char.isDigit s (q0 + 1) - (q0 + 1)
           if 1 ≤ dd then some (q0 + 1 + dd) else none)
        else none) with
      | some e => e
      | none => q0
    (unit (skipCls pyIsSpace s q1)).map fun q4 =>
      let q5 := match lc50Paren s q4 with | some e => e | none => q4
      match hourGrp s q5 with
      | some e => (p, e)
      | none => (p, q5)
  else none

/-- `(?:mg|g)/L` (case-insensitive). -/
def lc50Unit1 (s : Str) (q : Nat) : Option Nat :=
  ((litFrom true "mg".data s q) <|> litFrom true "g".data s q).bind fun q3 =>
  litFrom true "/l".data s q3

/-- LC50 pattern shell (source lines 507-508):
`LC[50₅O]+\s*(?:inhalation)?\s*[:\-]?\s*(cap)`. -/
def lc50PatAt (unit : Nat → Option Nat) (s : Str) (i : Nat) : Option (Nat × Nat) :=
  (litFrom true "lc".data s i).bind fun j =>
  let r := skipCls ld50Cls s j - j
  if 1 ≤ r then
    runBack (fun e =>
      firstSome (fun o =>
        let o1 := skipCls pyIsSpace s o
        let o2 := optCls (fun c => c = ':' ∨ c = '-') s o1
        lc50CapWith unit s (skipCls pyIsSpace s o2))
        (optList (litFrom true "inhalation".data s (skipCls pyIsSpace s e)) ++
         [skipCls pyIsSpace s e])) j r
  else none

/-- The `LC50` field (source lines 506-515). -/
def extract_lc50 (s : Str) : Str :=
  let f := fun (unit : Nat → Option Nat) =>
    find_between ((findFrom s (lc50PatAt unit s) 0).map fun r => substr s r.2.1 r.2.2)
      "NDA".data
  let v1 := f (lc50Unit1 s)
  if v1 ≠ "NDA".data then v1 else f (litFrom true "ppm".data s)

/-- The unit alternation `(mg|g|ppm|mL|L)` of the IDLH pattern. -/
def idlhUnit (s : Str) (u : Nat) : Option Nat :=
  litFrom true "mg".data s u <|> litFrom true "g".data s u <|>
  litFrom true "ppm".data s u <|> litFrom true "ml".data s u <|>
  litFrom true "l".data s u

/-- Lazy inner `.*?\s*(mg|g|ppm|mL|L)` of the IDLH pattern: the smallest
extension of group 1 after which (greedy whitespace, then) a unit
matches.  Returns (end of group 1, unit span). -/
def idlhLazy (s : Str) : Nat → Nat → Option (Nat × Nat × Nat)
  | 0, _ => none
  | fuel + 1, q =>
    let u := skipCls pyIsSpace s q
    match idlhUnit s u with
    | some e => some (q, u, e)
    | none =>
      match s[q]? with
      | some c => if c = '\n' then none else idlhLazy s fuel (q + 1)
      | none => none

/-- Group 1 of the IDLH pattern, `([0-9,]+.*?)`, starting exactly at `p`:
the greedy `[0-9,]+` run backtracks from its maximal length. -/
def idlhAt1 (s : Str) (p : Nat) : Option (Str × Str) :=
  let maxr := skipCls numCls s p - p
  runBack (fun q =>
    (idlhLazy s (s.length + 1) q).map fun t => (substr s p t.1, substr s t.2.1 t.2.2))
    p maxr

/-- Outer lazy `.*?` of the IDLH pattern: smallest gap before group 1. -/
def idlhOuter (s : Str) : Nat → Nat → Option (Str × Str)
  | 0, _ => none
  | fuel + 1, p =>
    match idlhAt1 s p with
    | some r => some r
    | none =>
      match s[p]? with
      | some c => if c = '\n' then none else idlhOuter s fuel (p + 1)
      | none => none

/-- The IDLH pattern (source line 573):
`LC50\s*[-:]\s*.*?([0-9,]+.*?)\s*(mg|g|ppm|mL|L)`, two capture groups. -/
def idlhPatAt (s : Str) (i : Nat) : Option (Str × Str) :=
  (litFrom true "lc50".data s i).bind fun j =>
  let j1 := skipCls pyIsSpace s j
  if s[j1]?.any (fun c => c = '-' ∨ c = ':') then
    idlhOuter s (s.length + 1) (skipCls pyIsSpace s (j1 + 1))
  else none

/-- The `Immediate Danger to Life in Humans` field: `find_between` over a
two-group pattern, so `matches[0]` is a tuple rendered by `str` before the
digit check (source lines 240-241, 573). -/
def extract_idlh (s : Str) : Str :=
  find_between ((findFrom s (idlhPatAt s) 0).map fun r => pyPairRepr r.2.1 r.2.2)
    "NDA".data

/-- Substring test, Python `needle in hay`. -/
def containsSub (hay needle : Str) : Bool :=
  (findFrom hay (litFrom false needle hay) 0).isSome

/-- A name pattern of the form `LABEL[:\s]*([^\n\r]+)`. -/
def nameCapAt (label : Str) (s : Str) (i : Nat) : Option Str :=
  (litFrom true label s i).bind fun j => tailClsCap nonNL s j

/-- Name pattern 5, `Product name\s*:[:\s]*([^\n\r]+)` (source line 523). -/
def nameCap5At (s : Str) (i : Nat) : Option Str :=
  (litFrom true "product name".data s i).bind fun j =>
  let a := skipCls pyIsSpace s j
  if s[a]? = some ':' then tailClsCap nonNL s (a + 1) else none

/-- The leftmost captures of the seven `chemical_name_patterns` (source
lines 518-526), in order. -/
def namePatList (s : Str) : List (Option Str) :=
  [(findFrom s (nameCapAt "material name".data s) 0).map Prod.snd,
   (findFrom s (nameCapAt "product name".data s) 0).map Prod.snd,
   (findFrom s (nameCapAt "product names".data s) 0).map Prod.snd,
   (findFrom s (nameCapAt "product name:".data s) 0).map Prod.snd,
   (findFrom s (nameCap5At s) 0).map Prod.snd,
   (findFrom s (nameCapAt "product description".data s) 0).map Prod.snd,
   (findFrom s (nameCapAt "identification of the substance".data s) 0).map Prod.snd]

/-- The guard loop of the name extraction (source lines 529-541): a
stripped capture longer than 60 characters, containing a slash, or
containing "company" sends the loop to the next pattern. -/
def nameLoop : List (Option Str) → Str
  | [] => "NDA".data
  | none :: rest => nameLoop rest
  | some c :: rest =>
    let v := pyStrip c
    if 60 < v.length ∨ containsSub (lowerS v) "/".data ∨
        containsSub (lowerS v) "company".data then nameLoop rest
    else v

def extract_name (s : Str) : Str := nameLoop (namePatList s)

/-- The ignition capture `\s*[:\-]?\s*([\d,]+[.,]?\d*)`. -/
def ignCap (s : Str) (p : Nat) : Option Str :=
  let i1 := skipCls pyIsSpace s p
  let i2 := optCls (fun c => c = ':' ∨ c = '-') s i1
  let i3 := skipCls pyIsSpace s i2
  let r := skipCls numCls s i3 - i3
  if 1 ≤ r then
    let j := i3 + r
    let k := if s[j]? = some '.' then skipCls Char.isDigit s (j + 1) else j
    some (substr s i3 k)
  else none

/-- `(?:\s*,?\s*°?\s*C)?` of the ignition pattern; the classes at each
step are disjoint, so the greedy scan is final. -/
def ignCGrp (s : Str) (p : Nat) : Option Nat :=
  let a := skipCls pyIsSpace s p
  let b := optCls (· = ',') s a
  let c := skipCls pyIsSpace s b
  let d := optCls (· = '°') s c
  let e := skipCls pyIsSpace s d
  if s[e]?.any (fun ch => ch.toLower = 'c') then some (e + 1) else none

/-- The ignition-temperature pattern (source lines 544-552):
`(?:auto|self)?[-\s]?ignition(?:\s*temperature)?(?:\s*,?\s*°?\s*C)?\s*[:\-]?\s*([\d,]+[.,]?\d*)`,
with the optional groups explored in `re` backtracking order. -/
def ignPatAt (s : Str) (i : Nat) : Option Str :=
  firstSome (fun st =>
    firstSome (fun b =>
      (litFrom true "ignition".data s b).bind fun j =>
      let grpEnds : List Nat :=
        (match litFrom true "temperature".data s (skipCls pyIsSpace s j) with
         | some t => optList (ignCGrp s t) ++ [t]
         | none => []) ++ optList (ignCGrp s j) ++ [j]
      firstSome (ignCap s) grpEnds)
      ((match s[st]? with
        | some c => if c = '-' ∨ pyIsSpace c then [st + 1] else []
        | none => []) ++ [st]))
    (optList (litFrom true "auto".data s i) ++
     optList (litFrom true "self".data s i) ++ [i])

/-- The `Ignition Temperature` field (source lines 553-554): the raw
`group(1)` of a direct `re.search`, no strip, no numeric cleaning. -/
def extract_ignition (s : Str) : Str :=
  match findFrom s (ignPatAt s) 0 with
  | some r => r.2
  | none => "NDA".data

/-- `\s*:?\s*` then a sub-matcher (the static-hazard "label: value"
shapes). -/
def colonOptTail (m : Nat → Option Nat) (s : Str) (j : Nat) : Option Nat :=
  let a := skipCls pyIsSpace s j
  let b := optCls (· = ':') s a
  m (skipCls pyIsSpace s b)

/-- `n/?a`. -/
def naPat (s : Str) (p : Nat) : Option Nat :=
  (litFrom true "n".data s p).bind fun q =>
  litFrom true "a".data s (optCls (· = '/') s q)

/-- `no_static_patterns` (source lines 292-299). -/
def noStaticPats (s : Str) : List (Nat → Option Nat) :=
  [wordsPat ["no".data, "static".data, "hazard".data] s,
   fun i => (wordsPat ["static".data, "hazard".data] s i).bind
     (colonOptTail (litFrom true "no".data s) s),
   wordsPat ["not".data, "static".data, "sensitive".data] s,
   wordsPat ["no".data, "electrostatic".data, "hazard".data] s,
   fun i => (wordsPat ["static".data, "discharge".data] s i).bind
     (colonOptTail (wordsPat ["not".data, "applicable".data] s) s),
   fun i => (wordsPat ["static".data, "discharge".data] s i).bind
     (colonOptTail (naPat s) s)]

/-- `static_patterns` (source lines 275-289). -/
def staticPats (s : Str) : List (Nat → Option Nat) :=
  [wordsPat ["static".data, "discharge".data] s,
   wordsPat ["electrostatic".data, "discharge".data] s,
   wordsPat ["static".data, "electricity".data] s,
   wordsPat ["electrostatic".data, "charge".data] s,
   wordsPat ["static".data, "charge".data] s,
   wordsPat ["precautionary".data, "measures".data, "against".data, "static".data,
     "discharge".data] s,
   fun i => (wordsPat ["measures".data, "to".data, "prevent".data] s i).bind fun j =>
     lineGap (litFrom true "static".data s) s (s.length + 1) j,
   fun i => (litFrom true "ground".data s i).bind fun j =>
     (lineGap (litFrom true "bond".data s) s (s.length + 1) j).bind fun k =>
     lineGap (litFrom true "container".data s) s (s.length + 1) k,
   fun i => (litFrom true "grounding".data s i).bind fun j =>
     lineGap (litFrom true "bonding".data s) s (s.length + 1) j,
   fun i => (litFrom true "anti".data s i).bind fun j =>
     litFrom true "static".data s (optCls (fun c => c = '-' ∨ pyIsSpace c) s j),
   wordsPat ["static".data, "sensitive".data] s,
   wordsPat ["electrostatic".data, "ignition".data] s,
   wordsPat ["static".data, "buildup".data] s]

/-- `handling_sections` (source lines 314-319). -/
def handlingPats (s : Str) : List (Nat → Option Nat) :=
  [fun i => (litFrom true "section".data s i).bind fun j =>
     let a := skipCls pyIsSpace s j
     if s[a]? = some '7' then
       lineGap (fun p => litFrom true "handling".data s p <|> litFrom true "storage".data s p)
         s (s.length + 1) (a + 1)
     else none,
   wordsPat ["handling".data, "and".data, "storage".data] s,
   wordsPat ["precautions".data, "for".data, "safe".data, "handling".data] s,
   wordsPat ["storage".data, "conditions".data] s]

/-- `extract_static_hazard` (source lines 272-334): explicit "no" phrasing
wins, then any static terminology means "Yes", then a detectable
handling/storage section defaults to "No", else `"NDA"`. -/
def extract_static_hazard (s : Str) : Str :=
  if (noStaticPats s).any (hasPat s) then "No".data
  else if (staticPats s).any (hasPat s) then "Yes".data
  else if (handlingPats s).any (hasPat s) then "No".data
  else "NDA".data

/-- Unrestricted gap (`.*?` under `re.DOTALL`): the sub-matcher may fire
at any later position; used inside the dual flammable-limit patterns. -/
def anyGapT {α : Type} (m : Nat → Option α) (s : Str) : Nat → Nat → Option α
  | 0, _ => none
  | fuel + 1, p =>
    match m p with
    | some a => some a
    | none =>
      match s[p]? with
      | some _ => anyGapT m s fuel (p + 1)
      | none => none

/-- The capture `(\d+(?:\.\d+)?)` of the flammable-limit patterns, as a
span. -/
def pctNum (s : Str) (p : Nat) : Option (Nat × Nat) :=
  let d := skipCls Char.isDigit s p - p
  if 1 ≤ d then
    let q0 := p + d
    let q1 :=
      match (if s[q0]? = some '.' then
          (let dd := skipCls Char.isDigit s (q0 + 1) - (q0 + 1)
           if 1 ≤ dd then some (q0 + 1 + dd) else none)
        else none) with
      | some e => e
      | none => q0
    some (p, q1)
  else none

/-- `\s*%`. -/
def pctAfter (s : Str) (e : Nat) : Option Nat :=
  let a := skipCls pyIsSpace s e
  if s[a]? = some '%' then some (a + 1) else none

/-- `[:\s]*`. -/
def colonSpSkip (s : Str) (j : Nat) : Nat :=
  skipCls (fun c => c = ':' ∨ pyIsSpace c) s j

/-- `LABEL[:\s]*(\d+(?:\.\d+)?)\s*%`: (capture start, capture end, end). -/
def dualPart (label : Nat → Option Nat) (s : Str) (p : Nat) :
    Option (Nat × Nat × Nat) :=
  (label p).bind fun j =>
  (pctNum s (colonSpSkip s j)).bind fun c =>
  (pctAfter s c.2).map fun e => (c.1, c.2, e)

/-- A dual pattern `L1[:\s]*(num)\s*%.*?L2[:\s]*(num)\s*%` under
`re.DOTALL` (flammable patterns 1-3, source lines 132-134). -/
def dualPatAt (l1 l2 : Nat → Option Nat) (s : Str) (i : Nat) : Option (Str × Str) :=
  match dualPart l1 s i with
  | none => none
  | some (cs1, ce1, post1) =>
    match anyGapT (dualPart l2 s) s (s.length + 1) post1 with
    | some (cs2, ce2, _) => some (substr s cs1 ce1, substr s cs2 ce2)
    | none => none

def lowExpLab (s : Str) : Nat → Option Nat :=
  wordsPat ["lower".data, "explosive".data, "limit".data] s

def upExpLab (s : Str) : Nat → Option Nat :=
  wordsPat ["upper".data, "explosive".data, "limit".data] s

/-- The range tail `[:\s]*(num)\s*%?\s*[-–—]\s*(num)\s*%` of flammable
patterns 4-6 (only 4 and 5 are ever used as duals). -/
def rangeTail (s : Str) (j : Nat) : Option (Str × Str) :=
  (pctNum s (colonSpSkip s j)).bind fun c1 =>
  let a := skipCls pyIsSpace s c1.2
  let b := optCls (· = '%') s a
  let c := skipCls pyIsSpace s b
  if s[c]?.any (fun ch => ch = '-' ∨ ch = '–' ∨ ch = '—') then
    (pctNum s (skipCls pyIsSpace s (c + 1))).bind fun c2 =>
    (pctAfter s c2.2).map fun _ => (substr s c1.1 c1.2, substr s c2.1 c2.2)
  else none

/-- Label candidates of flammable pattern 4,
`(?:LEL|Lower\s+explosive\s+limit|LFL|Flammable\s+limits?)`, in source
order (`limits?` greedy). -/
def d4LabelCands (s : Str) (i : Nat) : List Nat :=
  optList (litFrom true "lel".data s i) ++
  optList (lowExpLab s i) ++
  optList (litFrom true "lfl".data s i) ++
  (match (litFrom true "flammable".data s i).bind (fun j =>
      (sp1 s j).bind (litFrom true "limit".data s)) with
   | some e => (if s[e]? = some 's' then [e + 1] else []) ++ [e]
   | none => [])

def flamD4At (s : Str) (i : Nat) : Option (Str × Str) :=
  firstSome (rangeTail s) (d4LabelCands s i)

/-- Flammable pattern 5, `Explosive\s+limits?` + range tail (source line
138). -/
def flamD5At (s : Str) (i : Nat) : Option (Str × Str) :=
  match (litFrom true "explosive".data s i).bind (fun j =>
      (sp1 s j).bind (litFrom true "limit".data s)) with
  | some e => firstSome (rangeTail s) ((if s[e]? = some 's' then [e + 1] else []) ++ [e])
  | none => none

/-- One single-value pattern `LABEL[:\s]*(num)\s*%` searched over the
text, with the stripped capture. -/
def firstSingle (s : Str) : List (Nat → Option Nat) → Option Str
  | [] => none
  | lab :: rest =>
    match (findFrom s (fun i => (dualPart lab s i).map fun t => substr s t.1 t.2.1) 0).map
        Prod.snd with
    | some v => some (pyStrip v)
    | none => firstSingle s rest

/-- `w\s+limits?\s*:?\s*(?:not\s+applicable|n/?a)` (non-flammable
patterns 3-4). -/
def flamNA (s : Str) (w : Str) (i : Nat) : Option Nat :=
  (litFrom true w s i).bind fun j =>
  (sp1 s j).bind fun j1 =>
  (litFrom true "limit".data s j1).bind fun j2 =>
  let j3 := optCls (· = 's') s j2
  let a := skipCls pyIsSpace s j3
  let b := optCls (· = ':') s a
  let c := skipCls pyIsSpace s b
  (wordsPat ["not".data, "applicable".data] s c) <|> naPat s c

/-- `non_flammable_patterns` (source lines 208-216). -/
def nonFlamPats (s : Str) : List (Nat → Option Nat) :=
  [wordsPat ["not".data, "flammable".data] s,
   fun i => (litFrom true "non".data s i).bind fun j =>
     litFrom true "flammable".data s (optCls (fun c => c = '-' ∨ pyIsSpace c) s j),
   flamNA s "flammable".data,
   flamNA s "explosive".data,
   wordsPat ["does".data, "not".data, "burn".data] s,
   wordsPat ["will".data, "not".data, "burn".data] s,
   fun i => (litFrom true "non".data s i).bind fun j =>
     litFrom true "combustible".data s (optCls (fun c => c = '-' ∨ pyIsSpace c) s j)]

/-- `extract_flammable_limits` (source lines 119-226): the first five
(dual) patterns are tried for an LEL/UEL pair; failing that, the
individual LEL and UEL pattern lists; failing both, the non-flammable
declarations; else `"NDA"`. -/
def extract_flammable_limits (s : Str) : Str :=
  let dual :=
    (findFrom s (dualPatAt (litFrom true "lel".data s) (litFrom true "uel".data s) s) 0).map
      Prod.snd <|>
    (findFrom s (dualPatAt (lowExpLab s) (upExpLab s) s) 0).map Prod.snd <|>
    (findFrom s (dualPatAt (litFrom true "lfl".data s) (litFrom true "ufl".data s) s) 0).map
      Prod.snd <|>
    (findFrom s (flamD4At s) 0).map Prod.snd <|>
    (findFrom s (flamD5At s) 0).map Prod.snd
  match dual with
  | some (l, u) =>
    "LEL: ".data ++ pyStrip l ++ "%, UEL: ".data ++ pyStrip u ++ "%".data
  | none =>
    let lel := firstSingle s
      [litFrom true "lel".data s, lowExpLab s, litFrom true "lfl".data s,
       wordsPat ["lower".data, "flammable".data, "limit".data] s]
    let uel := firstSingle s
      [litFrom true "uel".data s, upExpLab s, litFrom true "ufl".data s,
       wordsPat ["upper".data, "flammable".data, "limit".data] s]
    match lel, uel with
    | some l, some u => "LEL: ".data ++ l ++ "%, UEL: ".data ++ u ++ "%".data
    | some l, none => "LEL: ".data ++ l ++ "%".data
    | none, some u => "UEL: ".data ++ u ++ "%".data
    | none, none =>
      if (nonFlamPats s).any (hasPat s) then "Non-flammable".data else "NDA".data

/-- `os.path.splitext(name)[0]` for a basename: drop the suffix after the
last dot, unless every character before that dot is itself a dot. -/
def splitextBase (name : Str) : Str :=
  let rev := name.reverse
  let ext := rev.takeWhile (· ≠ '.')
  if ext.length = name.length then name
  else
    let stem := name.take (name.length - ext.length - 1)
    if stem.all (· = '.') then name else stem

example : splitextBase "f.pdf".data = "f".data := by decide
example : splitextBase ".pdf".data = ".pdf".data := by decide
example : splitextBase "a.b.c".data = "a.b".data := by decide
example : splitextBase "noext".data = "noext".data := by decide

/-- `parse_sds_data` (source lines 229-585): run every field extractor on
the text, derive `Description` from the filename, and assemble the
19-column record in the order of the source's dict literal (lines
557-577).  The source computes `extract_flammable_limits` twice (lines
246 and 566) with the same result; it is computed once here. -/
def parse_sds_data (text : Str) (source_filename : Str) : Rec :=
  let desc := splitextBase source_filename
  [("Description".data, desc),
   ("CAS Number".data, extract_cas_number text),
   ("Material Name".data, extract_name text),
   ("Trade Name".data, extract_trade_name text),
   ("Physical state".data, extract_physical_state text),
   ("Static Hazard".data, extract_static_hazard text),
   ("Vapour Pressure".data, extract_vapour_pressure text),
   ("Flash Point (°C)".data, extract_flash_point text),
   ("Flammable Limits by Volume (LEL, UEL)".data, extract_flammable_limits text),
   ("Melting Point (°C)".data, extract_melting_point text),
   ("Boiling Point (°C)".data, extract_boiling_point text),
   ("Density".data, extract_density text),
   ("Relative Vapour Density (Air = 1)".data, extract_vapor_density text),
   ("Ignition Temperature (°C)".data, extract_ignition text),
   ("Threshold Limit Value (ppm)".data, extract_tlv text),
   ("Immediate Danger to Life in Humans".data, extract_idlh text),
   ("LD50 (mg/kg)".data, extract_ld50 text),
   ("LC50".data, extract_lc50 text),
   ("Source of Information".data, "MSDS".data)]

example :
    getD (parse_sds_data "vapour pressure:".data "f.pdf".data)
      "Vapour Pressure".data "NDA".data = [] := by decide

example :
    (parse_sds_data "vapour pressure:".data "f.pdf".data).map Prod.fst = COLUMNS := by
  decide

example :
    getD (parse_sds_data "LD50: >2000 mg/kg".data "x.pdf".data)
      "LD50 (mg/kg)".data "NDA".data = "2000".data := by decide

/-- The field-extractor call sites inside `parse_sds_data`, in source
evaluation order (the flammable-limits helper is called first, line 246;
the TLV and IDLH extractions happen inside the dict literal, lines
572-573). -/
inductive FieldSlot
  | flam | cas | phys | stat | vapr | trade | flash | melting | boiling
  | density | vdens | ld50f | lc50f | matName | ignition | tlv | idlh
deriving DecidableEq

/-- One extractor call that may raise: `fault sl = some msg` models the
call raising the exception `msg`; `none` is the normal return. -/
def callE (fault : FieldSlot → Option String) (sl : FieldSlot) (v : Str) :
    Except String Str :=
  match fault sl with
  | some m => .error m
  | none => .ok v

/-- `parse_sds_data` with every extractor call allowed to raise an
internal fault.  The source body contains no exception handler, so the
calls are sequenced monadically over `Except`: the first raising call
aborts the whole record. -/
def parse_sds_dataF (fault : FieldSlot → Option String) (text source_filename : Str) :
    Except String Rec := do
  let flam ← callE fault .flam (extract_flammable_limits text)
  let cas ← callE fault .cas (extract_cas_number text)
  let phys ← callE fault .phys (extract_physical_state text)
  let stat ← callE fault .stat (extract_static_hazard text)
  let vapr ← callE fault .vapr (extract_vapour_pressure text)
  let trade ← callE fault .trade (extract_trade_name text)
  let flash ← callE fault .flash (extract_flash_point text)
  let melt ← callE fault .melting (extract_melting_point text)
  let boil ← callE fault .boiling (extract_boiling_point text)
  let dens ← callE fault .density (extract_density text)
  let vdens ← callE fault .vdens (extract_vapor_density text)
  let ld ← callE fault .ld50f (extract_ld50 text)
  let lc ← callE fault .lc50f (extract_lc50 text)
  let nm ← callE fault .matName (extract_name text)
  let ign ← callE fault .ignition (extract_ignition text)
  let tlvv ← callE fault .tlv (extract_tlv text)
  let idl ← callE fault .idlh (extract_idlh text)
  pure
    [("Description".data, splitextBase source_filename),
     ("CAS Number".data, cas),
     ("Material Name".data, nm),
     ("Trade Name".data, trade),
     ("Physical state".data, phys),
     ("Static Hazard".data, stat),
     ("Vapour Pressure".data, vapr),
     ("Flash Point (°C)".data, flash),
     ("Flammable Limits by Volume (LEL, UEL)".data, flam),
     ("Melting Point (°C)".data, melt),
     ("Boiling Point (°C)".data, boil),
     ("Density".data, dens),
     ("Relative Vapour Density (Air = 1)".data, vdens),
     ("Ignition Temperature (°C)".data, ign),
     ("Threshold Limit Value (ppm)".data, tlvv),
     ("Immediate Danger to Life in Humans".data, idl),
     ("LD50 (mg/kg)".data, ld),
     ("LC50".data, lc),
     ("Source of Information".data, "MSDS".data)]

/-- The extractor call slots in evaluation order. -/
def slotOrder : List FieldSlot :=
  [.flam, .cas, .phys, .stat, .vapr, .trade, .flash, .melting, .boiling,
   .density, .vdens, .ld50f, .lc50f, .matName, .ignition, .tlv, .idlh]

/-- The outcome of `extract_pdf_text` for one document: the extracted
text, or an exception raised while handling the file. -/
inductive ExtractOutcome
  | ok (text : Str)
  | raise (msg : String)

/-- One uploaded document: its basename, the text-extraction outcome, and
which extractor calls fault while parsing it. -/
structure Doc where
  filename : Str
  extraction : ExtractOutcome
  faults : FieldSlot → Option String

/-- State of the per-document loop (source lines 736-757). -/
structure BatchState where
  all_data : List Rec
  processed : Nat
  skipped : List Str
deriving DecidableEq

/-- One iteration of the document loop (source lines 740-757): an
exception anywhere in the `try` block skips the document with a
"processing error" reason; empty extracted text skips it with
"no text extracted"; otherwise the parsed record is collected. -/
def procDoc (st : BatchState) (d : Doc) : BatchState :=
  match d.extraction with
  | .raise m =>
    { st with skipped := st.skipped ++
        [d.filename ++ " (processing error: ".data ++ m.data ++ ")".data] }
  | .ok t =>
    if pyStrip t ≠ [] then
      match parse_sds_dataF d.faults t d.filename with
      | .ok r =>
        { st with all_data := st.all_data ++ [r], processed := st.processed + 1 }
      | .error m =>
        { st with skipped := st.skipped ++
            [d.filename ++ " (processing error: ".data ++ m.data ++ ")".data] }
    else
      { st with skipped := st.skipped ++ [d.filename ++ " (no text extracted)".data] }

def processDocs (docs : List Doc) : BatchState :=
  docs.foldl procDoc ⟨[], 0, []⟩

/-- The record a document contributes, if any. -/
def docRecord (d : Doc) : Option Rec :=
  match d.extraction with
  | .raise _ => none
  | .ok t =>
    if pyStrip t ≠ [] then (parse_sds_dataF d.faults t d.filename).toOption
    else none

/-- The skip reason a document contributes, if any. -/
def docReason (d : Doc) : Option Str :=
  match d.extraction with
  | .raise m =>
    some (d.filename ++ " (processing error: ".data ++ m.data ++ ")".data)
  | .ok t =>
    if pyStrip t ≠ [] then
      match parse_sds_dataF d.faults t d.filename with
      | .ok _ => none
      | .error m =>
        some (d.filename ++ " (processing error: ".data ++ m.data ++ ")".data)
    else some (d.filename ++ " (no text extracted)".data)

/-- The response fields of a successful upload that concern the
extraction stage (source lines 829-845). -/
structure UploadResp where
  processedFiles : Nat
  skippedFiles : List Str
  data : List Rec
deriving DecidableEq

/-- The extraction stage of `upload_files` (source lines 736-765): run the
document loop, fail the batch when no document yielded data (source lines
759-760), otherwise merge and report the processed count and the skipped
files with reasons. -/
def upload_core (docs : List Doc) (merge_duplicates : Bool) :
    Except String UploadResp :=
  let st := processDocs docs
  if st.all_data = [] then
    .error "No valid SDS data could be extracted from any PDF files. Please check if the PDFs contain readable text."
  else
    .ok ⟨st.processed, st.skipped,
      merge_by_cas_number_optional st.all_data merge_duplicates⟩

/-- The shape of every value produced by `find_between` (source lines
237-245): either the `"NDA"` default, or a stripped capture that is passed
through `clean_numeric_value` exactly when it contains a digit. -/
def postProcessed (v : Str) : Prop :=
  v = "NDA".data ∨ ∃ cap : Str,
    v = (if (pyStrip cap).any Char.isDigit then clean_numeric_value (pyStrip cap)
         else pyStrip cap)

/-! ### Helper lemmas about the record and dict model -/

theorem getD_cons (a w : Str) (t : Rec) (k d : Str) :
    getD ((a, w) :: t) k d = if k = a then w else getD t k d := by
  by_cases h : k = a
  · simp [getD, List.lookup, h]
  · have hb : (k == a) = false := beq_eq_false_iff_ne.mpr h
    simp [getD, List.lookup, hb, h]

theorem getD_setK (r : Rec) (k v k' d : Str) :
    getD (setK r k v) k' d = if k' = k then v else getD r k' d := by
  induction r with
  | nil =>
    by_cases h : k' = k
    · simp [setK, getD, List.lookup, h]
    · have hb : (k' == k) = false := beq_eq_false_iff_ne.mpr h
      simp [setK, getD, List.lookup, hb, h]
  | cons p t ih =>
    obtain ⟨a, w⟩ := p
    by_cases hak : a = k
    · subst hak
      by_cases h : k' = a <;> simp [setK, getD_cons, h]
    · by_cases h : k' = a
      · subst h
        simp [setK, hak, getD_cons, Ne.symm hak]
      · simp [setK, hak, getD_cons, h, ih]

theorem mergeInto_eq_foldl (acc row : Rec) :
    mergeInto acc row = COLUMNS.foldl (mstep row) acc := rfl

theorem getD_mstep_other (row a : Rec) (col col' d : Str) (h : col' ≠ col) :
    getD (mstep row a col) col' d = getD a col' d := by
  unfold mstep
  split
  · simp [getD_setK, h]
  · rfl

theorem getD_foldl_not_mem (row : Rec) (cols : List Str) (a : Rec) (col d : Str)
    (h : col ∉ cols) :
    getD (cols.foldl (mstep row) a) col d = getD a col d := by
  induction cols generalizing a with
  | nil => rfl
  | cons c t ih =>
    have hcc : col ≠ c := fun hh => h (hh ▸ List.mem_cons_self c t)
    have ht : col ∉ t := fun hh => h (List.mem_cons_of_mem c hh)
    simp only [List.foldl_cons]
    rw [ih (mstep row a c) ht, getD_mstep_other row a c col d hcc]

theorem getD_foldl_mem (row : Rec) (cols : List Str) (a : Rec) (col : Str)
    (hnd : cols.Nodup) (hmem : col ∈ cols) :
    getD (cols.foldl (mstep row) a) col "NDA".data =
      if isSent (getD a col "NDA".data) ∧ ¬ isSent (getD row col "NDA".data) then
        getD row col "NDA".data
      else getD a col "NDA".data := by
  induction cols generalizing a with
  | nil => cases hmem
  | cons c t ih =>
    rcases List.mem_cons.mp hmem with hc | ht
    · subst hc
      have hnt : col ∉ t := (List.nodup_cons.mp hnd).1
      simp only [List.foldl_cons]
      rw [getD_foldl_not_mem row t (mstep row a col) col "NDA".data hnt]
      unfold mstep
      split
      · simp [getD_setK]
      · rfl
    · have hcc : col ≠ c := by
        intro hh
        exact (List.nodup_cons.mp hnd).1 (hh ▸ ht)
      simp only [List.foldl_cons]
      rw [ih (mstep row a c) (List.nodup_cons.mp hnd).2 ht,
        getD_mstep_other row a c col "NDA".data hcc]

/-- **C4**: for duplicate-key merging, the merged record takes each column
from the first member unless that value is a sentinel, and fills a column
from the later member only when the current value is a sentinel
(`""`, `"NDA"`, `None`, `"n/a"`) and the candidate's is not; a present
value is never overwritten and never downgraded.  Stated as (1) the exact
column rule of one merge step, and (2) a two-record batch with one shared
usable CAS key merges into exactly that combination. -/
theorem c4_merge_fill :
    (∀ acc row : Rec, ∀ col : Str, col ∈ COLUMNS →
      getD (mergeInto acc row) col "NDA".data =
        (if isSent (getD acc col "NDA".data) ∧ ¬ isSent (getD row col "NDA".data) then
          getD row col "NDA".data
        else getD acc col "NDA".data)) ∧
    (∀ r1 r2 : Rec, unusableCas r1 = false → casStripped r1 = casStripped r2 →
      merge_by_cas_number_optional [r1, r2] true = [mergeInto r1 r2]) := by
  constructor
  · intro acc row col hmem
    rw [mergeInto_eq_foldl]
    exact getD_foldl_mem row COLUMNS acc col (by decide) hmem
  · intro r1 r2 h1 h2
    have h2' : unusableCas r2 = false := by
      unfold unusableCas at h1 ⊢
      rw [← h2]
      exact h1
    have hk1 : mergeKey r1 0 = casStripped r1 := by simp [mergeKey, h1]
    have hk2 : mergeKey r2 1 = casStripped r1 := by simp [mergeKey, h2', ← h2]
    simp only [merge_by_cas_number_optional]
    norm_num
    simp only [List.foldl_cons, List.foldl_nil, mergeStep]
    simp [hk1, hk2, List.lookup]

theorem lookup_append {β : Type} (l1 l2 : List (Str × β)) (k : Str) :
    (l1 ++ l2).lookup k =
      (match l1.lookup k with
       | some v => some v
       | none => l2.lookup k) := by
  induction l1 with
  | nil => simp
  | cons p t ih =>
    obtain ⟨a, w⟩ := p
    by_cases h : k = a
    · simp [List.lookup, h]
    · have hb : (k == a) = false := beq_eq_false_iff_ne.mpr h
      simp [List.lookup, hb, ih]

/-- When every upcoming key is fresh, the merge fold only appends. -/
theorem merge_foldl_fresh (rows : List Rec) :
    ∀ acc : List (Str × Rec),
      (runKeys acc.length rows).Nodup →
      (∀ k ∈ runKeys acc.length rows, acc.lookup k = none) →
      rows.foldl mergeStep acc = acc ++ pairRun acc.length rows := by
  induction rows with
  | nil => intro acc _ _; simp [pairRun]
  | cons r rs ih =>
    intro acc hnd hfresh
    have hk : acc.lookup (mergeKey r acc.length) = none :=
      hfresh _ (by simp [runKeys])
    have hstep : mergeStep acc r = acc ++ [(mergeKey r acc.length, r)] := by
      unfold mergeStep
      rw [hk]
    have hnd' := by simpa [runKeys] using hnd
    have hlen : (acc ++ [(mergeKey r acc.length, r)]).length = acc.length + 1 := by
      simp
    have hrec := ih (acc ++ [(mergeKey r acc.length, r)])
      (by rw [hlen]; exact hnd'.2)
      (by
        intro k hkm
        rw [hlen] at hkm
        rw [lookup_append]
        rw [hfresh k (by simp [runKeys, hkm])]
        have hne : k ≠ mergeKey r acc.length := by
          intro hh
          exact hnd'.1 (hh ▸ hkm)
        have hb : (k == mergeKey r acc.length) = false := beq_eq_false_iff_ne.mpr hne
        simp [List.lookup, hb])
    simp only [List.foldl_cons]
    rw [hstep, hrec, hlen]
    simp [pairRun, List.append_assoc]

theorem pairRun_map_snd (rows : List Rec) : ∀ n, (pairRun n rows).map Prod.snd = rows := by
  induction rows with
  | nil => intro n; rfl
  | cons r rs ih => intro n; simp [pairRun, ih]

/-- **C6**: for a batch in which no two records receive the same identity
key, running the consolidator with merge-by-identity enabled yields the
same records as with it disabled, and the disabled run returns the batch
unchanged. -/
theorem c6_merge_idempotent (rows : List Rec) (h : (runKeys 0 rows).Nodup) :
    merge_by_cas_number_optional rows true = merge_by_cas_number_optional rows false ∧
    merge_by_cas_number_optional rows false = rows := by
  have hfalse : merge_by_cas_number_optional rows false = rows := by
    unfold merge_by_cas_number_optional
    by_cases hr : rows = [] <;> simp [hr]
  refine ⟨?_, hfalse⟩
  rw [hfalse]
  by_cases hr : rows = []
  · simp [hr, merge_by_cas_number_optional]
  · unfold merge_by_cas_number_optional
    rw [if_neg hr, if_neg (by simp)]
    have hfold := merge_foldl_fresh rows [] (by simpa using h) (by intro k _; rfl)
    simp only [List.length_nil] at hfold
    rw [hfold]
    simpa using pairRun_map_snd rows 0

theorem c6_merge_idempotent_witness :
    (runKeys 0 [[("CAS Number".data, "64-17-5".data)],
      [("CAS Number".data, "67-64-1".data)]]).Nodup ∧
    merge_by_cas_number_optional
      [[("CAS Number".data, "64-17-5".data)], [("CAS Number".data, "67-64-1".data)]] true =
      [[("CAS Number".data, "64-17-5".data)], [("CAS Number".data, "67-64-1".data)]] := by
  refine ⟨by decide, ?_⟩
  have h := c6_merge_idempotent
    [[("CAS Number".data, "64-17-5".data)], [("CAS Number".data, "67-64-1".data)]]
    (by decide)
  exact h.1.trans h.2

theorem digitChar_isDigit (n : Nat) : (digitChar n).isDigit = true := by
  unfold digitChar
  split <;> decide

theorem digitChar_toNat (n : Nat) (h : n < 10) : (digitChar n).toNat = 48 + n := by
  interval_cases n <;> decide

theorem natToStrAux_digits (fuel : Nat) :
    ∀ n, ∀ c ∈ natToStrAux fuel n, c.isDigit = true := by
  induction fuel with
  | zero => intro n c hc; cases hc
  | succ fuel ih =>
    intro n c hc
    unfold natToStrAux at hc
    split at hc
    · rw [List.mem_singleton.mp hc]
      exact digitChar_isDigit n
    · rcases List.mem_append.mp hc with hc | hc
      · exact ih _ c hc
      · rw [List.mem_singleton.mp hc]
        exact digitChar_isDigit _

/-- The decimal-digit accumulator. -/
theorem natToStrAux_foldl (fuel : Nat) :
    ∀ n acc, n < fuel →
      (natToStrAux fuel n).foldl (fun a c => a * 10 + (c.toNat - 48)) acc =
        acc * 10 ^ (natToStrAux fuel n).length + n := by
  induction fuel with
  | zero => intro n acc h; omega
  | succ fuel ih =>
    intro n acc h
    unfold natToStrAux
    split
    · rename_i h10
      simp [List.foldl, digitChar_toNat n h10]
    · rename_i h10
      push_neg at h10
      have hdiv : n / 10 < fuel := by
        have h1 : n / 10 < n := Nat.div_lt_self (by omega) (by omega)
        omega
      rw [List.foldl_append, ih (n / 10) acc hdiv]
      have hm : (digitChar (n % 10)).toNat = 48 + n % 10 :=
        digitChar_toNat _ (Nat.mod_lt _ (by omega))
      simp only [List.foldl_cons, List.foldl_nil, hm, List.length_append,
        List.length_cons, List.length_nil, Nat.zero_add]
      rw [pow_succ, ← Nat.mul_assoc]
      omega

theorem natToStr_inj {m n : Nat} (h : natToStr m = natToStr n) : m = n := by
  have hm := natToStrAux_foldl (m + 1) m 0 (by omega)
  have hn := natToStrAux_foldl (n + 1) n 0 (by omega)
  unfold natToStr at h
  rw [h] at hm
  rw [hm] at hn
  omega

theorem natToStr_no_us (n : Nat) : '_' ∉ natToStr n := by
  intro hmem
  have := natToStrAux_digits (n + 1) n '_' hmem
  exact absurd this (by decide)

/-- In `a ++ '_' :: s1 = b ++ '_' :: s2` with underscore-free prefixes
`r1, r2` read off the FIRST underscore, the prefixes agree. -/
theorem us_first_eq : ∀ (r1 r2 t1 t2 : Str), '_' ∉ r1 → '_' ∉ r2 →
    r1 ++ '_' :: t1 = r2 ++ '_' :: t2 → r1 = r2 := by
  intro r1
  induction r1 with
  | nil =>
    intro r2 t1 t2 _ h2 heq
    cases r2 with
    | nil => rfl
    | cons c r2' =>
      injection heq with hc _
      exact absurd (hc ▸ List.mem_cons_self c r2') h2
  | cons c r1' ih =>
    intro r2 t1 t2 h1 h2 heq
    cases r2 with
    | nil =>
      injection heq with hc _
      exact absurd (hc.symm ▸ List.mem_cons_self c r1') h1
    | cons c2 r2' =>
      injection heq with hc ht
      rw [hc, ih r2' t1 t2 (fun hm => h1 (List.mem_cons_of_mem c hm))
        (fun hm => h2 (List.mem_cons_of_mem c2 hm)) ht]

/-- Underscore-free suffixes after the LAST underscore agree. -/
theorem us_last_eq (a b s1 s2 : Str) (h1 : '_' ∉ s1) (h2 : '_' ∉ s2)
    (heq : a ++ '_' :: s1 = b ++ '_' :: s2) : s1 = s2 := by
  have hrev : s1.reverse ++ '_' :: a.reverse = s2.reverse ++ '_' :: b.reverse := by
    have h := congrArg List.reverse heq
    simpa [List.reverse_append] using h
  have := us_first_eq s1.reverse s2.reverse a.reverse b.reverse
    (by simpa using h1) (by simpa using h2) hrev
  have h' := congrArg List.reverse this
  simpa using h'

theorem noCasKey_inj_n {d1 d2 : Str} {n1 n2 : Nat}
    (h : noCasKey d1 n1 = noCasKey d2 n2) : n1 = n2 := by
  unfold noCasKey at h
  have h' : ("no_cas_".data ++ d1) ++ '_' :: natToStr n1 =
      ("no_cas_".data ++ d2) ++ '_' :: natToStr n2 := by
    simpa [List.append_assoc] using h
  exact natToStr_inj (us_last_eq _ _ _ _ (natToStr_no_us n1) (natToStr_no_us n2) h')

theorem runKeys_unusable_mem (rows : List Rec)
    (hall : ∀ r ∈ rows, unusableCas r = true) :
    ∀ n k, k ∈ runKeys n rows → ∃ d m, n ≤ m ∧ k = noCasKey d m := by
  induction rows with
  | nil => intro n k hk; cases hk
  | cons r rs ih =>
    intro n k hk
    rcases List.mem_cons.mp hk with hk1 | hk2
    · refine ⟨getD r "Description".data "unknown".data, n, le_refl n, ?_⟩
      rw [hk1]
      unfold mergeKey
      rw [hall r (List.mem_cons_self r rs)]
      rfl
    · obtain ⟨d, m, hm, hkey⟩ := ih (fun x hx => hall x (List.mem_cons_of_mem r hx)) (n + 1) k hk2
      exact ⟨d, m, by omega, hkey⟩

theorem runKeys_unusable_nodup (rows : List Rec)
    (hall : ∀ r ∈ rows, unusableCas r = true) :
    ∀ n, (runKeys n rows).Nodup := by
  induction rows with
  | nil => intro n; exact List.nodup_nil
  | cons r rs ih =>
    intro n
    refine List.nodup_cons.mpr ⟨?_, ih (fun x hx => hall x (List.mem_cons_of_mem r hx)) (n + 1)⟩
    intro hmem
    obtain ⟨d, m, hm, hkey⟩ := runKeys_unusable_mem rs
      (fun x hx => hall x (List.mem_cons_of_mem r hx)) (n + 1) _ hmem
    have hkn : mergeKey r n = noCasKey (getD r "Description".data "unknown".data) n := by
      unfold mergeKey
      rw [hall r (List.mem_cons_self r rs)]
      rfl
    have := noCasKey_inj_n (hkn.symm.trans hkey)
    omega

/-- **C5** (amended): (1) a batch in which every record lacks a usable CAS
number passes through identity-key merging unchanged — the synthetic
`no_cas_{description}_{n}` keys are pairwise distinct because the decimal
counter after the last underscore differs; (2) for CAS dedup, the kept
rows are exactly those whose stripped lowercase CAS key is absent from the
existing key set, from which only the literal `"nda"` is discarded — so a
record whose key is `"nda"` is never dropped, while keys `""` or `"n/a"`
can be dropped against equal existing sentinel values. -/
theorem c5_identity_key :
    (∀ rows : List Rec, (∀ r ∈ rows, unusableCas r = true) →
      merge_by_cas_number_optional rows true = rows) ∧
    (∀ ex nw : DF, ex.cols.contains "CAS Number".data = true → ex.rows ≠ [] →
      check_for_duplicates ex nw "cas".data = .ok (nw.rows.filter (casNew ex)) ∧
      ∀ r ∈ nw.rows, casKeyOf r = "nda".data → r ∈ nw.rows.filter (casNew ex)) := by
  constructor
  · intro rows hall
    by_cases hr : rows = []
    · simp [hr, merge_by_cas_number_optional]
    · unfold merge_by_cas_number_optional
      rw [if_neg hr, if_neg (by simp)]
      have hfold := merge_foldl_fresh rows []
        (by simpa using runKeys_unusable_nodup rows hall 0)
        (by intro k _; rfl)
      simp only [List.length_nil] at hfold
      rw [hfold]
      simpa using pairRun_map_snd rows 0
  · intro ex nw hc hne
    have hlen : ¬ ex.rows.length = 0 := by
      intro hz
      exact hne (List.length_eq_zero.mp hz)
    have hcheck : check_for_duplicates ex nw "cas".data = .ok (nw.rows.filter (casNew ex)) := by
      unfold check_for_duplicates
      rw [if_neg (by decide), if_neg hlen]
      rw [if_pos (And.intro (Or.inl rfl) hc)]
      rw [if_neg (show ¬ (("cas".data = "description".data ∨ "cas".data = "both".data) ∧
        ex.cols.contains "Description".data = true) from fun hh => absurd hh.1 (by decide))]
      simp
    refine ⟨hcheck, ?_⟩
    intro r hr hkey
    refine List.mem_filter.mpr ⟨hr, ?_⟩
    have hnm : "nda".data ∉ existingCas ex := by
      intro hmem
      have hp := (List.mem_filter.mp hmem).2
      simp at hp
    simp [casNew, hkey, hnm]

/-- **C5** counterexample: a new record whose `CAS Number` is the
sentinel `"n/a"` IS dropped by CAS dedup against an existing record whose
`CAS Number` is likewise `"n/a"` — the existing key set discards only the
literal `"nda"`. -/
theorem c5_counterexample :
    check_for_duplicates
      ⟨COLUMNS, [[("Description".data, "a".data), ("CAS Number".data, "n/a".data)]]⟩
      ⟨COLUMNS, [[("Description".data, "b".data), ("CAS Number".data, "n/a".data)]]⟩
      "cas".data = .ok [] ∧
    unusableCas [("Description".data, "b".data), ("CAS Number".data, "n/a".data)] = true ∧
    unusableCas [("Description".data, "a".data), ("CAS Number".data, "n/a".data)] = true := by
  decide

theorem c5_identity_key_witness :
    merge_by_cas_number_optional
      [[("Description".data, "a".data)], [("Description".data, "a".data)],
       [("Description".data, "b".data), ("CAS Number".data, "NDA".data)]] true =
      [[("Description".data, "a".data)], [("Description".data, "a".data)],
       [("Description".data, "b".data), ("CAS Number".data, "NDA".data)]] ∧
    check_for_duplicates
      ⟨COLUMNS, [[("Description".data, "a".data), ("CAS Number".data, "64-17-5".data)]]⟩
      ⟨COLUMNS, [[("Description".data, "b".data), ("CAS Number".data, "NDA".data)]]⟩
      "cas".data =
      .ok [[("Description".data, "b".data), ("CAS Number".data, "NDA".data)]] := by
  constructor
  · exact c5_identity_key.1 _ (by decide)
  · have h := (c5_identity_key.2
      ⟨COLUMNS, [[("Description".data, "a".data), ("CAS Number".data, "64-17-5".data)]]⟩
      ⟨COLUMNS, [[("Description".data, "b".data), ("CAS Number".data, "NDA".data)]]⟩
      (by decide) (by decide)).1
    rw [h]
    decide

/-- **C1** counterexample: under policy `"both"`, a record that duplicates
the existing dataset only on CAS (its description is new) is nevertheless
dropped — the record is NOT kept although it is new in the description
dimension. -/
theorem c1_counterexample :
    descNew
      ⟨COLUMNS, [[("Description".data, "ethanol".data), ("CAS Number".data, "64-17-5".data)]]⟩
      [("Description".data, "methanol".data), ("CAS Number".data, "64-17-5".data)] = true ∧
    check_for_duplicates
      ⟨COLUMNS, [[("Description".data, "ethanol".data), ("CAS Number".data, "64-17-5".data)]]⟩
      ⟨COLUMNS, [[("Description".data, "methanol".data), ("CAS Number".data, "64-17-5".data)]]⟩
      "both".data = .ok [] := by
  decide

/-- **C1** (amended): for policy `"both"` a new record is KEPT only when
it is new on both criteria — it is dropped as soon as it duplicates the
existing dataset on EITHER the CAS key or the Description (case-insensitive,
trimmed); the spec's reading (dropped only when duplicating on both) is the
De Morgan dual of what the conjunction of keep-filters computes. -/
theorem c1_both_semantics (ex nw : DF)
    (hc : ex.cols.contains "CAS Number".data = true)
    (hd : ex.cols.contains "Description".data = true)
    (hne : ex.rows ≠ []) :
    check_for_duplicates ex nw "both".data =
      .ok (nw.rows.filter fun r => casNew ex r ∧ descNew ex r) ∧
    (∀ r, r ∈ nw.rows.filter (fun r => casNew ex r ∧ descNew ex r) ↔
      r ∈ nw.rows ∧ casNew ex r = true ∧ descNew ex r = true) := by
  have hlen : ¬ ex.rows.length = 0 := by
    intro hz
    exact hne (List.length_eq_zero.mp hz)
  constructor
  · unfold check_for_duplicates
    rw [if_neg (by decide), if_neg hlen]
    rw [if_pos (And.intro (Or.inr rfl) hc)]
    rw [if_pos (And.intro (Or.inr rfl) hd)]
    simp
  · intro r
    rw [List.mem_filter]
    simp

theorem c1_both_semantics_witness :
    check_for_duplicates
      ⟨COLUMNS, [[("Description".data, "ethanol".data), ("CAS Number".data, "64-17-5".data)]]⟩
      ⟨COLUMNS,
        [[("Description".data, "methanol".data), ("CAS Number".data, "64-17-5".data)],
         [("Description".data, "propanol".data), ("CAS Number".data, "71-23-8".data)]]⟩
      "both".data =
      .ok [[("Description".data, "propanol".data), ("CAS Number".data, "71-23-8".data)]] := by
  have h := (c1_both_semantics
    ⟨COLUMNS, [[("Description".data, "ethanol".data), ("CAS Number".data, "64-17-5".data)]]⟩
    ⟨COLUMNS,
      [[("Description".data, "methanol".data), ("CAS Number".data, "64-17-5".data)],
       [("Description".data, "propanol".data), ("CAS Number".data, "71-23-8".data)]]⟩
    (by decide) (by decide) (by decide)).1
  rw [h]
  decide

/-- **C3** counterexample: on the text "vapour pressure:" the assembled
record's `Vapour Pressure` value is the empty string — a schema value that
is neither `"NDA"` nor a non-empty string (the label matched with nothing
after the colon, and `group(1)` of `(.*)` is `""`). -/
theorem c3_counterexample :
    getD (parse_sds_data "vapour pressure:".data "f.pdf".data)
      "Vapour Pressure".data "NDA".data = [] ∧
    ([] : Str) ≠ "NDA".data ∧
    ("Vapour Pressure".data, ([] : Str)) ∈
      parse_sds_data "vapour pressure:".data "f.pdf".data := by
  decide

/-- **C3** (amended): for every input text and filename the assembled
record has exactly the 19 canonical schema columns, in source order, with
no missing and no extra keys; the claim's further guarantee that every
value is `"NDA"` or a non-empty string fails (see the counterexample). -/
theorem c3_schema_columns (text fn : Str) :
    (parse_sds_data text fn).map Prod.fst = COLUMNS := rfl

/-- Characters surviving `pyStrip` come from the original list. -/
theorem mem_pyStrip {c : Char} {v : Str} (h : c ∈ pyStrip v) : c ∈ v := by
  unfold pyStrip at h
  rw [List.mem_reverse] at h
  have h1 := (List.dropWhile_sublist _).mem h
  rw [List.mem_reverse] at h1
  exact (List.dropWhile_sublist _).mem h1

theorem firstIdxAux_some (p : Char → Bool) (s : Str) :
    ∀ fuel i j, firstIdxAux p s fuel i = some j →
      ∃ c, s[j]? = some c ∧ p c = true := by
  intro fuel
  induction fuel with
  | zero => intro i j h; cases h
  | succ f ih =>
    intro i j h
    unfold firstIdxAux at h
    cases hc : s[i]? with
    | none => rw [hc] at h; cases h
    | some c =>
      rw [hc] at h
      change (if p c = true then some i else firstIdxAux p s f (i + 1)) = some j at h
      by_cases hp : p c = true
      · rw [if_pos hp] at h
        injection h with h
        exact ⟨c, h ▸ hc, hp⟩
      · rw [if_neg hp] at h
        exact ih (i + 1) j h

/-- When no character of the (stripped) value is a digit or comma, the
numeric cleaner finds nothing. -/
theorem clean_NDA_of_strip {v : Str}
    (h : ∀ c ∈ pyStrip v, numCls c = false) :
    clean_numeric_value v = "NDA".data := by
  unfold clean_numeric_value
  split
  · rfl
  · dsimp only
    split
    · rename_i run hrun
      exfalso
      unfold findNumRun at hrun
      split at hrun
      · cases hrun
      · rename_i i hfi
        unfold firstIdx at hfi
        obtain ⟨c, hcg, hcp⟩ := firstIdxAux_some numCls _ _ 0 i hfi
        have hcm' : c ∈ pyStrip v :=
          (List.dropWhile_sublist _).mem (List.getElem?_mem hcg)
        rw [h c hcm'] at hcp
        cases hcp
    · rfl

/-- `toLower` fixes digits and the comma. -/
theorem toLower_numCls {c : Char} (h : numCls c = true) : c.toLower = c := by
  rcases (by simpa [numCls] using h : c.isDigit = true ∨ c = ',') with hd | hc
  · have hval : c.val ≤ 57 := by
      have h2 := (by simpa [Char.isDigit, Bool.and_eq_true] using hd :
        (48 : UInt32) ≤ c.val ∧ c.val ≤ 57)
      exact h2.2
    have hle : c.toNat ≤ 57 := UInt32.toNat_le_of_le (by norm_num [UInt32.size]) hval
    have hnot : ¬ (Char.toNat c ≥ 65 ∧ Char.toNat c ≤ 90) := fun hcon => by omega
    simp [Char.toLower, hnot]
  · rw [hc]
    decide

/-- **C9** counterexample: `clean_numeric_value(",x")` returns `","` — the
input contains no digit (hence no numeric run), yet the result is neither
`"NDA"` nor a numeric value, because the matcher class `[\d,]` accepts a
bare comma. -/
theorem c9_counterexample :
    clean_numeric_value ",x".data = ",".data ∧
    (∀ c ∈ ",x".data, c.isDigit = false) ∧
    ",".data ≠ "NDA".data := by
  decide

/-- **C9** (amended): the cleaner returns `"NDA"` for every input whose
trimmed value case-insensitively matches one of
{"nda","n/a","not available",""} and for every input containing neither a
digit nor a comma; otherwise it returns the first `[\d,]+[.,]?\d*` run
(which can be a bare comma run) with a trailing comma-as-decimal
normalised to a dot; the three quoted evaluations hold. -/
theorem c9_clean_numeric :
    clean_numeric_value "  :  12,5 mg".data = "12.5".data ∧
    clean_numeric_value "N/A".data = "NDA".data ∧
    clean_numeric_value "".data = "NDA".data ∧
    (∀ v : Str,
      (lowerS (pyStrip v) = "nda".data ∨ lowerS (pyStrip v) = "n/a".data ∨
       lowerS (pyStrip v) = "not available".data ∨ lowerS (pyStrip v) = []) →
      clean_numeric_value v = "NDA".data) ∧
    (∀ v : Str, (∀ c ∈ v, numCls c = false) →
      clean_numeric_value v = "NDA".data) := by
  refine ⟨by decide, by decide, by decide, ?_, ?_⟩
  · intro v hv
    apply clean_NDA_of_strip
    intro c hc
    by_contra hbc
    rw [Bool.not_eq_false] at hbc
    have hlc := toLower_numCls hbc
    have hno : ∀ c2 ∈ lowerS (pyStrip v), numCls c2 = false := by
      rcases hv with h1 | h1 | h1 | h1 <;> rw [h1] <;> decide
    have hcl := hno c.toLower (List.mem_map_of_mem _ hc)
    rw [hlc] at hcl
    simp [hcl] at hbc
  · intro v hv
    apply clean_NDA_of_strip
    intro c hc
    exact hv c (mem_pyStrip hc)

theorem c9_clean_numeric_witness :
    clean_numeric_value " N/A ".data = "NDA".data ∧
    clean_numeric_value "abc-def".data = "NDA".data :=
  ⟨c9_clean_numeric.2.2.2.1 " N/A ".data (by decide),
   c9_clean_numeric.2.2.2.2 "abc-def".data (by decide)⟩

theorem findFromAux_none {α : Type} (m : Nat → Option α) (h : ∀ i, m i = none) :
    ∀ fuel i, findFromAux m fuel i = none := by
  intro fuel
  induction fuel with
  | zero => intro i; rfl
  | succ f ih =>
    intro i
    unfold findFromAux
    rw [h i]
    exact ih (i + 1)

theorem findFromAux_some {α : Type} (m : Nat → Option α) :
    ∀ fuel i j a, findFromAux m fuel i = some (j, a) → m j = some a := by
  intro fuel
  induction fuel with
  | zero => intro i j a h; cases h
  | succ f ih =>
    intro i j a h
    unfold findFromAux at h
    cases hm : m i with
    | some b =>
      rw [hm] at h
      injection h with h
      obtain ⟨h1, h2⟩ := Prod.mk.injEq .. |>.mp h
      subst h1
      subst h2
      exact hm
    | none =>
      rw [hm] at h
      exact ih (i + 1) j a h

theorem casTail_core {s : Str} {i st en : Nat} (h : casTail s i = some (st, en)) :
    casCoreAt s st = some en := by
  unfold casTail at h
  dsimp only at h
  rw [Option.map_eq_some'] at h
  obtain ⟨e, he, hpair⟩ := h
  obtain ⟨h1, h2⟩ := Prod.mk.injEq .. |>.mp hpair
  rw [← h1, ← h2]
  exact he

theorem casPat1_core {s : Str} {i st en : Nat}
    (h : casPat1At s i = some (st, en)) : casCoreAt s st = some en := by
  unfold casPat1At at h
  rw [Option.bind_eq_some] at h
  obtain ⟨j, _, h⟩ := h
  exact casTail_core h

theorem casPat2_core {s : Str} {i st en : Nat}
    (h : casPat2At s i = some (st, en)) : casCoreAt s st = some en := by
  unfold casPat2At at h
  rw [Option.bind_eq_some] at h
  obtain ⟨j, _, h⟩ := h
  rw [Option.bind_eq_some] at h
  obtain ⟨j2, _, h⟩ := h
  rw [Option.bind_eq_some] at h
  obtain ⟨j3, _, h⟩ := h
  exact casTail_core h

theorem casPat3_core {s : Str} {i st en : Nat}
    (h : casPat3At s i = some (st, en)) : casCoreAt s st = some en := by
  unfold casPat3At at h
  rw [Option.bind_eq_some] at h
  obtain ⟨j, _, h⟩ := h
  rw [Option.bind_eq_some] at h
  obtain ⟨j2, _, h⟩ := h
  rw [Option.bind_eq_some] at h
  obtain ⟨j3, _, h⟩ := h
  exact casTail_core h

theorem casPat4_core {s : Str} {i st en : Nat}
    (h : casPat4At s i = some (st, en)) : casCoreAt s st = some en := by
  unfold casPat4At at h
  rw [Option.bind_eq_some] at h
  obtain ⟨j, _, h⟩ := h
  exact casTail_core h

theorem casPat5_core {s : Str} {i st en : Nat}
    (h : casPat5At s i = some (st, en)) : casCoreAt s st = some en := by
  unfold casPat5At at h
  rw [Option.bind_eq_some] at h
  obtain ⟨j, _, h⟩ := h
  exact casTail_core h

theorem casPat6_core {s : Str} {i st en : Nat}
    (h : casPat6At s i = some (st, en)) : casCoreAt s st = some en := by
  unfold casPat6At at h
  rw [Option.bind_eq_some] at h
  obtain ⟨j, _, h⟩ := h
  dsimp only at h
  cases h1 : (litFrom true "no".data s _).bind (casTail s) with
  | some r =>
    rw [h1] at h
    simp only [Option.some_orElse] at h
    injection h with h
    rw [h] at h1
    rw [Option.bind_eq_some] at h1
    obtain ⟨_, _, h1⟩ := h1
    exact casTail_core h1
  | none =>
    rw [h1] at h
    simp only [Option.none_orElse] at h
    cases h2 : (litFrom true "number".data s _).bind (casTail s) with
    | some r =>
      rw [h2] at h
      simp only [Option.some_orElse] at h
      injection h with h
      rw [h] at h2
      rw [Option.bind_eq_some] at h2
      obtain ⟨_, _, h2⟩ := h2
      exact casTail_core h2
    | none =>
      rw [h2] at h
      simp only [Option.none_orElse] at h
      cases h3 : (litFrom true "#".data s _).bind (casTail s) with
      | some r =>
        rw [h3] at h
        simp only [Option.some_orElse] at h
        injection h with h
        rw [h] at h3
        rw [Option.bind_eq_some] at h3
        obtain ⟨_, _, h3⟩ := h3
        exact casTail_core h3
      | none =>
        rw [h3] at h
        simp only [Option.none_orElse] at h
        exact casTail_core h

theorem casPat7_core {s : Str} {i st en : Nat}
    (h : casPat7At s i = some (st, en)) : casCoreAt s st = some en := by
  unfold casPat7At at h
  split at h
  · rw [Option.bind_eq_some] at h
    obtain ⟨e, he, h2⟩ := h
    split at h2
    · injection h2 with h2
      obtain ⟨h3, h4⟩ := Prod.mk.injEq .. |>.mp h2
      rw [← h3, ← h4]
      exact he
    · cases h2
  · cases h

theorem firstCapture_none {s : Str} {pat : Nat → Option (Nat × Nat)}
    (h : ∀ i, pat i = none) : firstCapture s pat = none := by
  unfold firstCapture findFrom
  rw [findFromAux_none pat h]
  rfl

theorem firstCapture_some {s : Str} {pat : Nat → Option (Nat × Nat)} {c : Str}
    (h : firstCapture s pat = some c) :
    ∃ i st en, pat i = some (st, en) ∧ c = substr s st en := by
  unfold firstCapture findFrom at h
  cases hf : findFromAux pat (s.length + 1 - 0) 0 with
  | none => rw [hf] at h; cases h
  | some r =>
    rw [hf] at h
    injection h with h
    obtain ⟨i, st, en⟩ := r
    exact ⟨i, st, en, findFromAux_some pat _ 0 i (st, en) hf, h.symm⟩

theorem casCoreAt_oob (s : Str) (j : Nat) (h : s.length ≤ j) :
    casCoreAt s j = none := by
  have hskip : skipCls Char.isDigit s j = j := by
    unfold skipCls
    cases hl : s.length with
    | zero => rfl
    | succ n =>
      unfold skipClsAux
      rw [List.getElem?_eq_none h]
  unfold casCoreAt
  rw [hskip]
  simp

/-- **C8** counterexample: the text `"ABC7732-18-5"` contains a CAS-shaped
substring (`casCoreAt` succeeds at position 3) and no label, yet the
extractor returns `"NDA"` — the bare fallback requires word boundaries. -/
theorem c8_counterexample :
    casCoreAt "ABC7732-18-5".data 3 = some 12 ∧
    extract_cas_number "ABC7732-18-5".data = "NDA".data := by
  decide

/-- **C8** (amended): a labelled CAS-shaped substring is returned,
dashes verbatim; a bare CAS-shaped substring is returned only when
delimited by word boundaries (`"ABC7732-18-5"` yields `NotAvailable`, see
the counterexample); a text with no CAS-shaped substring yields
`NotAvailable`; and every non-`"NDA"` result is a stripped verbatim slice
of the text at a position where the CAS core `\d{2,7}-\d{2}-\d` matches —
never passed through numeric cleaning. -/
theorem c8_cas_extraction :
    extract_cas_number "CAS-No.: 7732-18-5".data = "7732-18-5".data ∧
    extract_cas_number "7732-18-5".data = "7732-18-5".data ∧
    (∀ s : Str, (∀ j, j < s.length → casCoreAt s j = none) →
      extract_cas_number s = "NDA".data) ∧
    (∀ s : Str, extract_cas_number s ≠ "NDA".data →
      ∃ st en, casCoreAt s st = some en ∧
        extract_cas_number s = pyStrip (substr s st en)) := by
  refine ⟨by decide, by decide, ?_, ?_⟩
  · intro s hlt
    have hall : ∀ j, casCoreAt s j = none := by
      intro j
      by_cases hj : j < s.length
      · exact hlt j hj
      · exact casCoreAt_oob s j (by omega)
    have mk : ∀ (pat : Nat → Option (Nat × Nat)),
        (∀ {i st en : Nat}, pat i = some (st, en) → casCoreAt s st = some en) →
        firstCapture s pat = none := by
      intro pat hcore
      apply firstCapture_none
      intro i
      cases hp : pat i with
      | none => rfl
      | some r =>
        obtain ⟨st, en⟩ := r
        have hc := hcore hp
        rw [hall st] at hc
        cases hc
    have h1 := mk (casPat1At s) casPat1_core
    have h2 := mk (casPat2At s) casPat2_core
    have h3 := mk (casPat3At s) casPat3_core
    have h4 := mk (casPat4At s) casPat4_core
    have h5 := mk (casPat5At s) casPat5_core
    have h6 := mk (casPat6At s) casPat6_core
    have h7 := mk (casPat7At s) casPat7_core
    unfold extract_cas_number
    rw [h1, h2, h3, h4, h5, h6, h7]
    rfl
  · intro s hne
    unfold extract_cas_number at hne ⊢
    cases g1 : firstCapture s (casPat1At s) with
    | some c =>
      simp only [g1, Option.some_orElse]
      obtain ⟨i, st, en, hp, hc⟩ := firstCapture_some g1
      exact ⟨st, en, casPat1_core hp, by rw [hc]⟩
    | none =>
    simp only [g1, Option.none_orElse] at hne ⊢
    cases g2 : firstCapture s (casPat2At s) with
    | some c =>
      simp only [g2, Option.some_orElse]
      obtain ⟨i, st, en, hp, hc⟩ := firstCapture_some g2
      exact ⟨st, en, casPat2_core hp, by rw [hc]⟩
    | none =>
    simp only [g2, Option.none_orElse] at hne ⊢
    cases g3 : firstCapture s (casPat3At s) with
    | some c =>
      simp only [g3, Option.some_orElse]
      obtain ⟨i, st, en, hp, hc⟩ := firstCapture_some g3
      exact ⟨st, en, casPat3_core hp, by rw [hc]⟩
    | none =>
    simp only [g3, Option.none_orElse] at hne ⊢
    cases g4 : firstCapture s (casPat4At s) with
    | some c =>
      simp only [g4, Option.some_orElse]
      obtain ⟨i, st, en, hp, hc⟩ := firstCapture_some g4
      exact ⟨st, en, casPat4_core hp, by rw [hc]⟩
    | none =>
    simp only [g4, Option.none_orElse] at hne ⊢
    cases g5 : firstCapture s (casPat5At s) with
    | some c =>
      simp only [g5, Option.some_orElse]
      obtain ⟨i, st, en, hp, hc⟩ := firstCapture_some g5
      exact ⟨st, en, casPat5_core hp, by rw [hc]⟩
    | none =>
    simp only [g5, Option.none_orElse] at hne ⊢
    cases g6 : firstCapture s (casPat6At s) with
    | some c =>
      simp only [g6, Option.some_orElse]
      obtain ⟨i, st, en, hp, hc⟩ := firstCapture_some g6
      exact ⟨st, en, casPat6_core hp, by rw [hc]⟩
    | none =>
    simp only [g6, Option.none_orElse] at hne ⊢
    cases g7 : firstCapture s (casPat7At s) with
    | some c =>
      simp only [g7]
      obtain ⟨i, st, en, hp, hc⟩ := firstCapture_some g7
      exact ⟨st, en, casPat7_core hp, by rw [hc]⟩
    | none =>
      rw [g7] at hne
      exact absurd rfl hne

theorem c8_cas_extraction_witness :
    extract_cas_number "no cas-shaped text here".data = "NDA".data ∧
    (∃ st en, casCoreAt "CAS#: 50-00-0".data st = some en ∧
      extract_cas_number "CAS#: 50-00-0".data =
        pyStrip (substr "CAS#: 50-00-0".data st en)) :=
  ⟨c8_cas_extraction.2.2.1 "no cas-shaped text here".data (by decide),
   c8_cas_extraction.2.2.2 "CAS#: 50-00-0".data (by decide)⟩

theorem find_between_post (o : Option Str) :
    postProcessed (find_between o "NDA".data) := by
  cases o with
  | none => left; rfl
  | some cap => right; exact ⟨cap, rfl⟩

theorem extract_ld50_post (t : Str) : postProcessed (extract_ld50 t) := by
  unfold extract_ld50
  dsimp only
  split
  · exact find_between_post _
  · split
    · exact find_between_post _
    · exact find_between_post _

theorem extract_lc50_post (t : Str) : postProcessed (extract_lc50 t) := by
  unfold extract_lc50
  dsimp only
  split
  · exact find_between_post _
  · exact find_between_post _

/-- **C10**: every field extracted through `find_between` (Flash Point,
Melting Point, Boiling Point, Threshold Limit Value, Immediate Danger to
Life, LD50, LC50) is stored either as the `"NDA"` default or as the
stripped capture, numerically cleaned exactly when it contains a digit —
so a captured LD50 of `">2000 mg/kg"` is stored as `"2000"`. -/
theorem c10_find_between_postprocessing :
    (∀ t fn : Str,
      postProcessed (getD (parse_sds_data t fn) "Flash Point (°C)".data "NDA".data) ∧
      postProcessed (getD (parse_sds_data t fn) "Melting Point (°C)".data "NDA".data) ∧
      postProcessed (getD (parse_sds_data t fn) "Boiling Point (°C)".data "NDA".data) ∧
      postProcessed (getD (parse_sds_data t fn) "Threshold Limit Value (ppm)".data "NDA".data) ∧
      postProcessed (getD (parse_sds_data t fn)
        "Immediate Danger to Life in Humans".data "NDA".data) ∧
      postProcessed (getD (parse_sds_data t fn) "LD50 (mg/kg)".data "NDA".data) ∧
      postProcessed (getD (parse_sds_data t fn) "LC50".data "NDA".data)) ∧
    getD (parse_sds_data "LD50: >2000 mg/kg".data "x.pdf".data)
      "LD50 (mg/kg)".data "NDA".data = "2000".data ∧
    clean_numeric_value ">2000 mg/kg".data = "2000".data := by
  refine ⟨?_, by decide, by decide⟩
  intro t fn
  refine ⟨?_, ?_, ?_, ?_, ?_, ?_, ?_⟩
  · show postProcessed (extract_flash_point t)
    exact find_between_post _
  · show postProcessed (extract_melting_point t)
    exact find_between_post _
  · show postProcessed (extract_boiling_point t)
    exact find_between_post _
  · show postProcessed (extract_tlv t)
    exact find_between_post _
  · show postProcessed (extract_idlh t)
    exact find_between_post _
  · show postProcessed (extract_ld50 t)
    exact extract_ld50_post t
  · show postProcessed (extract_lc50 t)
    exact extract_lc50_post t

/-- The monadic sequencing of `parse_sds_dataF` amounts to: the first
faulting extractor call (in source order) aborts the record with its
exception; with no fault the normal record is produced. -/
theorem parseF_eq (fault : FieldSlot → Option String) (t fn : Str) :
    parse_sds_dataF fault t fn =
      (match slotOrder.findSome? fault with
       | some m => Except.error m
       | none => Except.ok (parse_sds_data t fn)) := by
  have bind_ok : ∀ {α β : Type} (a : α) (f : α → Except String β),
      (Except.ok a >>= f) = f a := fun a f => rfl
  have bind_err : ∀ {α β : Type} (m : String) (f : α → Except String β),
      ((Except.error m : Except String α) >>= f) = Except.error m := fun m f => rfl
  unfold parse_sds_dataF slotOrder callE
  simp only [List.findSome?_cons]
  cases fault .flam <;> dsimp only <;> simp only [bind_ok, bind_err] <;>
  cases fault .cas <;> dsimp only <;> simp only [bind_ok, bind_err] <;>
  cases fault .phys <;> dsimp only <;> simp only [bind_ok, bind_err] <;>
  cases fault .stat <;> dsimp only <;> simp only [bind_ok, bind_err] <;>
  cases fault .vapr <;> dsimp only <;> simp only [bind_ok, bind_err] <;>
  cases fault .trade <;> dsimp only <;> simp only [bind_ok, bind_err] <;>
  cases fault .flash <;> dsimp only <;> simp only [bind_ok, bind_err] <;>
  cases fault .melting <;> dsimp only <;> simp only [bind_ok, bind_err] <;>
  cases fault .boiling <;> dsimp only <;> simp only [bind_ok, bind_err] <;>
  cases fault .density <;> dsimp only <;> simp only [bind_ok, bind_err] <;>
  cases fault .vdens <;> dsimp only <;> simp only [bind_ok, bind_err] <;>
  cases fault .ld50f <;> dsimp only <;> simp only [bind_ok, bind_err] <;>
  cases fault .lc50f <;> dsimp only <;> simp only [bind_ok, bind_err] <;>
  cases fault .matName <;> dsimp only <;> simp only [bind_ok, bind_err] <;>
  cases fault .ignition <;> dsimp only <;> simp only [bind_ok, bind_err] <;>
  cases fault .tlv <;> dsimp only <;> simp only [bind_ok, bind_err] <;>
  cases fault .idlh <;> dsimp only <;> simp only [bind_ok, bind_err] <;>
  rfl

theorem slot_mem (sl : FieldSlot) : sl ∈ slotOrder := by
  cases sl <;> simp [slotOrder]

theorem parseF_fault {fault : FieldSlot → Option String} {t fn : Str} {sl : FieldSlot}
    (h : (fault sl).isSome) :
    ∃ m, parse_sds_dataF fault t fn = Except.error m := by
  rw [parseF_eq]
  cases hfs : slotOrder.findSome? fault with
  | some m => exact ⟨m, rfl⟩
  | none =>
    exfalso
    have hnone := List.findSome?_eq_none_iff.mp hfs sl (slot_mem sl)
    rw [hnone] at h
    cases h

theorem parseF_nofault (t fn : Str) :
    parse_sds_dataF (fun _ => none) t fn = Except.ok (parse_sds_data t fn) := by
  rw [parseF_eq]
  rfl

theorem procDocs_spec (docs : List Doc) :
    ∀ st : BatchState,
      docs.foldl procDoc st =
        ⟨st.all_data ++ docs.filterMap docRecord,
         st.processed + (docs.filterMap docRecord).length,
         st.skipped ++ docs.filterMap docReason⟩ := by
  induction docs with
  | nil => intro st; simp
  | cons d ds ih =>
    intro st
    simp only [List.foldl_cons, List.filterMap_cons]
    rw [ih (procDoc st d)]
    unfold procDoc docRecord docReason
    cases hx : d.extraction with
    | raise m => simp
    | ok tx =>
      by_cases hs : pyStrip tx ≠ []
      · simp only [if_pos hs]
        cases hp : parse_sds_dataF d.faults tx d.filename with
        | ok r =>
          simp [Except.toOption, List.append_assoc] <;> omega
        | error m => simp [Except.toOption]
      · simp only [if_neg hs]
        simp

/-- **C7**: the document loop collects exactly the successfully parsed
records and one skip reason per failing document (empty text or a raised
exception), in order; the batch fails exactly when no document was
processed; otherwise the response reports the processed count, the skipped
reasons, and the merged records. -/
theorem c7_batch_outcomes (docs : List Doc) (md : Bool) :
    processDocs docs =
      ⟨docs.filterMap docRecord, (docs.filterMap docRecord).length,
       docs.filterMap docReason⟩ ∧
    ((∃ m, upload_core docs md = .error m) ↔ docs.filterMap docRecord = []) ∧
    (∀ resp, upload_core docs md = .ok resp →
      resp.processedFiles = (docs.filterMap docRecord).length ∧
      resp.skippedFiles = docs.filterMap docReason ∧
      resp.data = merge_by_cas_number_optional (docs.filterMap docRecord) md) := by
  have hspec : processDocs docs =
      ⟨docs.filterMap docRecord, (docs.filterMap docRecord).length,
       docs.filterMap docReason⟩ := by
    unfold processDocs
    rw [procDocs_spec docs ⟨[], 0, []⟩]
    simp
  refine ⟨hspec, ?_, ?_⟩
  · unfold upload_core
    rw [hspec]
    by_cases he : docs.filterMap docRecord = []
    · simp [he]
    · simp [he]
  · intro resp hresp
    unfold upload_core at hresp
    rw [hspec] at hresp
    by_cases he : docs.filterMap docRecord = []
    · rw [if_pos he] at hresp
      cases hresp
    · rw [if_neg he] at hresp
      injection hresp with hresp
      rw [← hresp]
      exact ⟨rfl, rfl, rfl⟩

theorem c7_batch_outcomes_witness :
    (processDocs
      [⟨"a.pdf".data, .ok "vapour pressure:".data, fun _ => none⟩,
       ⟨"b.pdf".data, .raise "read failure", fun _ => none⟩,
       ⟨"c.pdf".data, .ok "LD50: >2000 mg/kg".data, fun _ => none⟩]).processed = 2 ∧
    (processDocs
      [⟨"a.pdf".data, .ok "vapour pressure:".data, fun _ => none⟩,
       ⟨"b.pdf".data, .raise "read failure", fun _ => none⟩,
       ⟨"c.pdf".data, .ok "LD50: >2000 mg/kg".data, fun _ => none⟩]).skipped =
      ["b.pdf (processing error: read failure)".data] ∧
    (∃ resp, upload_core
      [⟨"a.pdf".data, .ok "vapour pressure:".data, fun _ => none⟩,
       ⟨"b.pdf".data, .raise "read failure", fun _ => none⟩,
       ⟨"c.pdf".data, .ok "LD50: >2000 mg/kg".data, fun _ => none⟩] false = .ok resp ∧
      resp.processedFiles = 2 ∧
      resp.skippedFiles = ["b.pdf (processing error: read failure)".data]) := by
  have h := c7_batch_outcomes
    [⟨"a.pdf".data, .ok "vapour pressure:".data, fun _ => none⟩,
     ⟨"b.pdf".data, .raise "read failure", fun _ => none⟩,
     ⟨"c.pdf".data, .ok "LD50: >2000 mg/kg".data, fun _ => none⟩] false
  refine ⟨by rw [h.1]; decide, by rw [h.1]; decide, ?_⟩
  cases hu : upload_core
      [⟨"a.pdf".data, .ok "vapour pressure:".data, fun _ => none⟩,
       ⟨"b.pdf".data, .raise "read failure", fun _ => none⟩,
       ⟨"c.pdf".data, .ok "LD50: >2000 mg/kg".data, fun _ => none⟩] false with
  | error m =>
    exfalso
    have hz := h.2.1.mp ⟨m, hu⟩
    exact absurd hz (by decide)
  | ok resp =>
    obtain ⟨hp, hsk, _⟩ := h.2.2 resp hu
    exact ⟨resp, rfl, by rw [hp]; decide, by rw [hsk]; decide⟩

/-- **C2** counterexample: a single extractor fault (here in the CAS
extractor) aborts the whole record — no record with `"NDA"` substituted is
assembled, and the document IS skipped with a processing-error reason. -/
theorem c2_counterexample :
    parse_sds_dataF (fun sl => if sl = FieldSlot.cas then some "boom" else none)
      "sometext".data "a.pdf".data = .error "boom" ∧
    processDocs [⟨"a.pdf".data, .ok "sometext".data,
      fun sl => if sl = FieldSlot.cas then some "boom" else none⟩] =
      ⟨[], 0, ["a.pdf (processing error: boom)".data]⟩ := by
  constructor
  · decide
  · decide

/-- **C2** (amended): `parse_sds_data` contains no exception handler, so
any single extractor fault propagates and aborts the whole record; the
surrounding per-document `try` then records the document as skipped with a
processing-error reason (and the batch continues with the remaining
documents, per the C7 loop characterisation). -/
theorem c2_fault_skips (t fn : Str) (fault : FieldSlot → Option String)
    (hf : ∃ sl, (fault sl).isSome) (ht : pyStrip t ≠ []) :
    (∃ m, parse_sds_dataF fault t fn = .error m) ∧
    docRecord ⟨fn, .ok t, fault⟩ = none ∧
    (∃ m : String, docReason ⟨fn, .ok t, fault⟩ =
      some (fn ++ " (processing error: ".data ++ m.data ++ ")".data)) := by
  obtain ⟨sl, hsl⟩ := hf
  obtain ⟨m, hm⟩ := @parseF_fault fault t fn sl hsl
  refine ⟨⟨m, hm⟩, ?_, ⟨m, ?_⟩⟩
  · unfold docRecord
    simp [ht, hm, Except.toOption]
  · unfold docReason
    simp [ht, hm]

theorem c2_fault_skips_witness :
    (∃ m, parse_sds_dataF (fun sl => if sl = FieldSlot.flam then some "x" else none)
      "abc".data "a.pdf".data = .error m) ∧
    docRecord ⟨"a.pdf".data, .ok "abc".data,
      fun sl => if sl = FieldSlot.flam then some "x" else none⟩ = none ∧
    (∃ m : String, docReason ⟨"a.pdf".data, .ok "abc".data,
        fun sl => if sl = FieldSlot.flam then some "x" else none⟩ =
      some ("a.pdf".data ++ " (processing error: ".data ++ m.data ++ ")".data)) :=
  c2_fault_skips "abc".data "a.pdf".data
    (fun sl => if sl = FieldSlot.flam then some "x" else none)
    ⟨FieldSlot.flam, by decide⟩ (by decide)

theorem c4_merge_fill_witness :
    merge_by_cas_number_optional
      [[("CAS Number".data, "64742-47-8".data), ("Density".data, "NDA".data)],
       [("CAS Number".data, "64742-47-8".data), ("Density".data, "0.8".data)]] true =
      [mergeInto
        [("CAS Number".data, "64742-47-8".data), ("Density".data, "NDA".data)]
        [("CAS Number".data, "64742-47-8".data), ("Density".data, "0.8".data)]] ∧
    getD (mergeInto
        [("CAS Number".data, "64742-47-8".data), ("Density".data, "NDA".data)]
        [("CAS Number".data, "64742-47-8".data), ("Density".data, "0.8".data)])
      "Density".data "NDA".data = "0.8".data ∧
    getD (mergeInto
        [("CAS Number".data, "64742-47-8".data), ("Density".data, "NDA".data)]
        [("CAS Number".data, "64742-47-8".data), ("Density".data, "0.8".data)])
      "CAS Number".data "NDA".data = "64742-47-8".data :=
  ⟨c4_merge_fill.2 _ _ (by decide) (by decide), by decide, by decide⟩

end SDS
